import Mathlib

/-!
# ax25beacon and ax25frame

A shallow embedding of the two command-line front ends of the AX.25 AFSK encoder
(`ax25beacon.c`, `ax25frame.c`) together with the declarations of `ax25.h`.

Conventions of the embedding:

* a C string is the list of its characters before the terminating NUL, and a
  `char *` that may be `NULL` is an `Option`;
* `getopt` is represented by the sequence of results it hands to the loop: the
  returned character together with `optarg`;
* the C library functions `atoi`, `atof` and the libao open calls are inputs of
  the model (`Env`), as is the configuration left behind by `ax25_init`;
* a `float` or `double` object holds an IEEE 754 value (`CFloat`): an exact
  rational, the negative zero, an infinity or a NaN; every `double` operation and
  every store into a `float` rounds to nearest, ties to even, in binary64 and
  binary32;
* stores into `uint16_t` and `uint8_t` fields reduce modulo `2^16` and `2^8`;
* `strdup` is taken to succeed;
* the bodies of `ax25_base91enc` and `ax25_frame` are not among the sources, which
  hold their declarations only; they are modelled from the specification.
-/

namespace Ax25

/-- A C string without its terminating NUL. The same type holds the bytes written
by a format expansion, among which `%c` can place a NUL. -/
abbrev CString := List Char

/-! ## ax25.h -/

/-- The macro `AX25_OK`. -/
def AX25_OK : Int := 0

/-- The macro `AX25_OUT_OF_MEMORY`. -/
def AX25_OUT_OF_MEMORY : Int := 1

/-- The macro `AX25_MAX_LEN`. -/
def AX25_MAX_LEN : Nat := 256

/-- The configuration fields of `ax25_t`. `samplerate`, `bitrate`, `freq1` and
`freq2` are `uint16_t`, `preamble` and `rest` are `uint8_t`. -/
structure ax25_t where
  samplerate : Nat
  bitrate : Nat
  freq1 : Nat
  freq2 : Nat
  preamble : Nat
  rest : Nat
deriving DecidableEq, Repr

/-- Conversion of an `int` to `uint16_t`. -/
def to_uint16 (v : Int) : Nat := (v % 65536).toNat

/-- Conversion of an `int` to `uint8_t`. -/
def to_uint8 (v : Int) : Nat := (v % 256).toNat

/-! ## Floating values -/

/-- The value of a `float` or `double` object: a number, the negative zero, an
infinity with its sign, or a NaN. `num 0` is the positive zero. -/
inductive CFloat where
  | num (v : ℚ)
  | negzero
  | inf (neg : Bool)
  | nan
deriving DecidableEq

/-- The number held by a floating value, when it holds one. -/
def CFloat.value : CFloat → Option ℚ
  | CFloat.num v => some v
  | CFloat.negzero => some 0
  | _ => none

/-- Rounding of a non-negative value to an integer, ties to even. -/
def round_half_even (x : ℚ) : Nat :=
  let f : Nat := ⌊x⌋.toNat
  let r : ℚ := x - f
  if r < 1 / 2 then f
  else if 1 / 2 < r then f + 1
  else if f % 2 = 0 then f else f + 1

/-- A binary floating format: the precision in bits and the exponents of the
least and greatest normal numbers. -/
structure BinaryFormat where
  p : Nat
  emin : Int
  emax : Int

/-- The format of `float`. -/
def binary32 : BinaryFormat := { p := 24, emin := -126, emax := 127 }

/-- The format of `double`. -/
def binary64 : BinaryFormat := { p := 53, emin := -1022, emax := 1023 }

/-- The spacing of the format around a positive `x`: 2 to the exponent of `x`
(at least `emin`) less `p - 1`. -/
def quantum (f : BinaryFormat) (x : ℚ) : ℚ :=
  (2 : ℚ) ^ (max (Int.log 2 x) f.emin - f.p + 1)

/-- A positive magnitude rounded to the nearest multiple of its quantum, ties to
the even multiple. -/
def round_mag (f : BinaryFormat) (x : ℚ) : ℚ :=
  (round_half_even (x / quantum f x) : ℚ) * quantum f x

/-- Rounding of an exact result to a format: to nearest, ties to even, the sign
kept when the result is zero, an infinity when the rounded magnitude exceeds the
format. -/
def round_to (f : BinaryFormat) (v : ℚ) : CFloat :=
  if v = 0 then CFloat.num 0
  else
    let r : ℚ := round_mag f |v|
    if (2 : ℚ) ^ (f.emax + 1) ≤ r then CFloat.inf (decide (v < 0))
    else if r = 0 then (if v < 0 then CFloat.negzero else CFloat.num 0)
    else CFloat.num (if v < 0 then -r else r)

/-- The store of a `double` into a `float` object. -/
def store_float : CFloat → CFloat
  | CFloat.num v => round_to binary32 v
  | x => x

/-- The `double` difference `k - x` for a constant `k` that is a non-zero
`double`. -/
def double_const_sub (k : ℚ) : CFloat → CFloat
  | CFloat.num v => round_to binary64 (k - v)
  | CFloat.negzero => CFloat.num k
  | CFloat.inf neg => CFloat.inf (!neg)
  | CFloat.nan => CFloat.nan

/-- The `double` sum `k + x` for a constant `k` that is a non-zero `double`. -/
def double_const_add (k : ℚ) : CFloat → CFloat
  | CFloat.num v => round_to binary64 (k + v)
  | CFloat.negzero => CFloat.num k
  | CFloat.inf neg => CFloat.inf neg
  | CFloat.nan => CFloat.nan

/-- The `double` product `x * k` for a constant `k` that is a positive
`double`. -/
def double_mul_const (k : ℚ) : CFloat → CFloat
  | CFloat.num v => round_to binary64 (v * k)
  | x => x

/-- Conversion of a floating value to `uint32_t`: the fractional part is
discarded (truncation toward zero); the behaviour is undefined (`none`) when the
truncated value is not representable, and for an infinity or a NaN. -/
def to_uint32 : CFloat → Option Nat
  | CFloat.num x =>
      let t : Int := if 0 ≤ x then ⌊x⌋ else ⌈x⌉
      if 0 ≤ t ∧ t < 4294967296 then some t.toNat else none
  | CFloat.negzero => some 0
  | _ => none

/-! ## printf-style formatting -/

/-- One variadic argument. -/
inductive PrintfArg where
  | char (c : Char)
  | str (s : CString)
  | double (x : CFloat)
deriving DecidableEq

/-- Left padding of `s` with `c` up to `w` characters. -/
def pad_left (c : Char) (w : Nat) (s : CString) : CString :=
  List.replicate (w - s.length) c ++ s

/-- The digits of the `f` conversion of a magnitude with precision `p`. -/
def fixed_digits (mag : ℚ) (p : Nat) : CString :=
  let m : Nat := round_half_even (mag * 10 ^ p)
  let ip : CString := Nat.toDigits 10 (m / 10 ^ p)
  if p = 0 then ip else ip ++ '.' :: pad_left '0' p (Nat.toDigits 10 (m % 10 ^ p))

/-- The `f` conversion of a sign and a magnitude: flag `0`, field width `w`,
precision `p`. -/
def format_fixed (zero : Bool) (w p : Nat) (neg : Bool) (mag : ℚ) : CString :=
  let sign : CString := if neg then ['-'] else []
  let body : CString := fixed_digits mag p
  if zero then sign ++ pad_left '0' (w - sign.length) body
  else pad_left ' ' w (sign ++ body)

/-- The `f` conversion of a floating value. The negative zero prints its sign.
The text of an infinity or a NaN is left open (`none`): its style is
implementation-defined. -/
def format_f (zero : Bool) (w p : Nat) : CFloat → Option CString
  | CFloat.num v => some (format_fixed zero w p (decide (v < 0)) |v|)
  | CFloat.negzero => some (format_fixed zero w p true 0)
  | _ => none

/-- One conversion `c` with its flag, width and precision, consuming arguments.
`none` is a conversion outside the supported set (`c`, `s`, `f`, `%`) or an
argument of the wrong kind. -/
def format_conv (zero : Bool) (w : Nat) (p : Option Nat) (c : Char)
    (args : List PrintfArg) : Option (CString × List PrintfArg) :=
  if c = '%' then some (['%'], args)
  else match args with
    | PrintfArg.char ch :: rest =>
        if c = 'c' ∧ zero = false then some (pad_left ' ' w [ch], rest) else none
    | PrintfArg.str s :: rest =>
        if c = 's' ∧ zero = false then
          some (pad_left ' ' w (match p with | some n => s.take n | none => s), rest)
        else none
    | PrintfArg.double x :: rest =>
        if c = 'f' then (format_f zero w (p.getD 6) x).map (fun out => (out, rest))
        else none
    | [] => none

/-- Where the scan of a format string stands. -/
inductive FmtState where
  | text
  | flags (zero : Bool)
  | width (zero : Bool) (w : Nat)
  | prec (zero : Bool) (w : Nat) (p : Nat)

/-- The text produced by a format string and its arguments. -/
def format_from : FmtState → List Char → List PrintfArg → Option CString
  | FmtState.text, [], _ => some []
  | _, [], _ => none
  | FmtState.text, c :: fmt, args =>
      if c = '%' then format_from (FmtState.flags false) fmt args
      else (format_from FmtState.text fmt args).map (fun out => c :: out)
  | FmtState.flags zero, c :: fmt, args =>
      if c = '0' then format_from (FmtState.flags true) fmt args
      else if c.isDigit then format_from (FmtState.width zero (c.toNat - 48)) fmt args
      else if c = '.' then format_from (FmtState.prec zero 0 0) fmt args
      else match format_conv zero 0 none c args with
        | some (out, rest) => (format_from FmtState.text fmt rest).map (fun t => out ++ t)
        | none => none
  | FmtState.width zero w, c :: fmt, args =>
      if c.isDigit then format_from (FmtState.width zero (w * 10 + (c.toNat - 48))) fmt args
      else if c = '.' then format_from (FmtState.prec zero w 0) fmt args
      else match format_conv zero w none c args with
        | some (out, rest) => (format_from FmtState.text fmt rest).map (fun t => out ++ t)
        | none => none
  | FmtState.prec zero w p, c :: fmt, args =>
      if c.isDigit then format_from (FmtState.prec zero w (p * 10 + (c.toNat - 48))) fmt args
      else match format_conv zero w (some p) c args with
        | some (out, rest) => (format_from FmtState.text fmt rest).map (fun t => out ++ t)
        | none => none

/-- The expansion of a format string, as `vsnprintf` produces it before any
truncation to a buffer. -/
def format (fmt : CString) (args : List PrintfArg) : Option CString :=
  format_from FmtState.text fmt args

/-! ## The interface of the command-line tools with their environment -/

/-- Text written to `stderr` or `stdout`. The usage text and the wording of the
sample-rate warning are not spelled out. -/
inductive Msg where
  | text (s : String)
  | usage
  | rate_warning (samplerate bitrate : Nat)
deriving DecidableEq

/-- One result of `getopt`: the character it returns and `optarg`. -/
structure GetoptEvent where
  x : Char
  optarg : CString
deriving DecidableEq

/-- The call that opens the audio output: `ao_format.rate`, and the WAV file
name for `ao_open_file` (`none` for `ao_open_live` on the default device). -/
structure AoOpen where
  rate : Nat
  wavfile : Option CString
deriving DecidableEq

/-- The arguments of a call of `ax25_frame`. -/
structure FrameCall where
  ax25 : ax25_t
  scallsign : CString
  dcallsign : CString
  path1 : Option CString
  path2 : Option CString
  data : CString
  args : List PrintfArg
deriving DecidableEq

/-- The payload text of a call: the format `data` expanded with its arguments. -/
def FrameCall.payload (c : FrameCall) : Option CString := format c.data c.args

/-- What the tools take from outside: the configuration stored by `ax25_init`,
the C library conversions, and whether libao opens the requested output. -/
structure Env where
  init : ax25_t
  atoi : CString → Int
  atof : CString → CFloat
  ao_open : AoOpen → Bool

/-- The observable course of one run of `main`. `opened` is the libao open call
made, if any; `frame` is the `ax25_frame` call made, if any; `status` is the
exit status, `none` when the run meets undefined behaviour. -/
structure Run where
  stderr : List Msg
  stdout : List Msg
  opened : Option AoOpen
  frame : Option FrameCall
  status : Option Int

/-- The function `_usage`: print the usage text, then `exit(-1)`. -/
def _usage : List Msg := [Msg.usage]

/-- The function `_die`: print the message, then `_usage`. -/
def _die (message : String) : List Msg := Msg.text message :: _usage

/-- A run ended by `exit(-1)` before any output is opened. -/
def Run.exited (err : List Msg) : Run :=
  { stderr := err, stdout := [], opened := none, frame := none, status := some (-1) }

/-- The character `optarg[0]`; the terminating NUL for an empty `optarg`. -/
def optarg0 (optarg : CString) : Char := optarg.headD (Char.ofNat 0)

/-! ## The base-91 encoder, from the specification -/

/-- The digits written by the divide-by-91 loop, least significant first in time,
most significant first in the string. -/
def base91_digits : Nat → Nat → List Nat → List Nat
  | 0, _, acc => acc
  | n + 1, v, acc => base91_digits n (v / 91) (v % 91 :: acc)

/-- Modelled from the spec: the body of `ax25_base91enc`, of which the sources
hold only the declaration `char *ax25_base91enc(char *s, uint8_t n, uint32_t v)`.
The value is divided by 91 repeatedly, giving `n` base-91 digits, most
significant first, each written as the character `33 + digit`. The result is the
string left in `s`. -/
def ax25_base91enc (n : Nat) (v : Nat) : CString :=
  (base91_digits (n % 256) (v % 4294967296) []).map (fun d => Char.ofNat (33 + d))

/-! ## ax25beacon.c -/

/-- The locals of `main` in ax25beacon.c that the option loop assigns. -/
structure BeaconOpts where
  ax25 : ax25_t
  wavfile : Option CString
  src_callsign : Option CString
  dst_callsign : Option CString
  path1 : Option CString
  path2 : Option CString
  sym_table : Char
  sym_code : Char

/-- The locals as initialised at the head of `main`, after `ax25_init`. -/
def beacon_init (env : Env) : BeaconOpts :=
  { ax25 := env.init, wavfile := none, src_callsign := none, dst_callsign := none,
    path1 := none, path2 := none, sym_table := '/', sym_code := 'O' }

/-- The body of the `switch` in ax25beacon.c; an error is the text printed before
`exit(-1)`. -/
def beacon_switch (env : Env) (v : BeaconOpts) (e : GetoptEvent) :
    Except (List Msg) BeaconOpts :=
  if e.x = 's' then
    if v.src_callsign.isSome then .error (_die "Only one sender callsign can be used\n")
    else .ok { v with src_callsign := some e.optarg }
  else if e.x = 'd' then
    if v.dst_callsign.isSome then
      .error (_die "Only one destination callsign can be used\n")
    else .ok { v with dst_callsign := some e.optarg }
  else if e.x = 'p' then
    if v.path1.isNone then .ok { v with path1 := some e.optarg }
    else if v.path2.isNone then .ok { v with path2 := some e.optarg }
    else .error (_die "Error: More than 2 paths specified\n")
  else if e.x = 'r' then
    .ok { v with ax25 := { v.ax25 with samplerate := to_uint16 (env.atoi e.optarg) } }
  else if e.x = 'P' then
    .ok { v with ax25 := { v.ax25 with preamble := to_uint8 (env.atoi e.optarg) } }
  else if e.x = 'R' then
    .ok { v with ax25 := { v.ax25 with rest := to_uint8 (env.atoi e.optarg) } }
  else if e.x = 'o' then
    if v.wavfile.isSome then .error (_die "Only one output WAV file can be used\n")
    else .ok { v with wavfile := some e.optarg }
  else if e.x = 't' then .ok { v with sym_table := optarg0 e.optarg }
  else if e.x = 'c' then .ok { v with sym_code := optarg0 e.optarg }
  else if e.x = '?' then .error _usage
  else .ok v

/-- The `while((x = getopt(...)) != -1)` loop of ax25beacon.c. -/
def beacon_getopt (env : Env) : BeaconOpts → List GetoptEvent → Except (List Msg) BeaconOpts
  | v, [] => .ok v
  | v, e :: es =>
      match beacon_switch env v e with
      | .ok w => beacon_getopt env w es
      | .error err => .error err

/-- The locals of `main` in ax25beacon.c once the command line is read. -/
structure BeaconLocals where
  ax25 : ax25_t
  wavfile : Option CString
  src_callsign : CString
  dst_callsign : CString
  path1 : Option CString
  path2 : Option CString
  sym_table : Char
  sym_code : Char
  latitude : CFloat
  longitude : CFloat
  altitude : CFloat
  comment : Option CString

/-- The part of `main` in ax25beacon.c that reads the command line: the option loop, the
callsign checks and the positional arguments `argv[optind ..]`, each `atof` result
being stored into a `float`. -/
def beacon_args (env : Env) (opts : List GetoptEvent) (argv : List CString) :
    Except (List Msg) BeaconLocals :=
  match beacon_getopt env (beacon_init env) opts with
  | .error err => .error err
  | .ok v =>
    match v.src_callsign with
    | none => .error (_die "No sender callsign specified\n")
    | some src =>
      let dst : CString := v.dst_callsign.getD "APRS".toList
      match argv with
      | [a0, a1, a2] =>
          .ok { ax25 := v.ax25, wavfile := v.wavfile, src_callsign := src, dst_callsign := dst,
                path1 := v.path1, path2 := v.path2, sym_table := v.sym_table,
                sym_code := v.sym_code, latitude := store_float (env.atof a0),
                longitude := store_float (env.atof a1),
                altitude := store_float (env.atof a2), comment := none }
      | [a0, a1, a2, a3] =>
          .ok { ax25 := v.ax25, wavfile := v.wavfile, src_callsign := src, dst_callsign := dst,
                path1 := v.path1, path2 := v.path2, sym_table := v.sym_table,
                sym_code := v.sym_code, latitude := store_float (env.atof a0),
                longitude := store_float (env.atof a1),
                altitude := store_float (env.atof a2), comment := some a3 }
      | _ => .error _usage

/-- The assignment `latitude = (90.0 - latitude) * 380926`: the difference and
the product are `double` operations, the result is stored into the `float`. -/
def scale_latitude (latitude : CFloat) : CFloat :=
  store_float (double_mul_const 380926 (double_const_sub 90 latitude))

/-- The assignment `longitude = (180.0 + longitude) * 190463`. -/
def scale_longitude (longitude : CFloat) : CFloat :=
  store_float (double_mul_const 190463 (double_const_add 180 longitude))

/-- The `double` constant `3.2808399`: the binary64 value nearest to it. -/
def double_3_2808399 : ℚ := 923474334443891 / 281474976710656

/-- The assignment `altitude = altitude * 3.2808399`. -/
def scale_altitude (altitude : CFloat) : CFloat :=
  store_float (double_mul_const double_3_2808399 altitude)

/-- The value passed as `v` in `ax25_base91enc(slat, 4, latitude)`: the scaled
latitude converted to the `uint32_t` parameter. -/
def beacon_lat_int (latitude : CFloat) : Option Nat := to_uint32 (scale_latitude latitude)

/-- The value passed as `v` in `ax25_base91enc(slng, 4, longitude)`. -/
def beacon_lon_int (longitude : CFloat) : Option Nat :=
  to_uint32 (scale_longitude longitude)

/-- The format string of the `ax25_frame` call in ax25beacon.c. -/
def beacon_data : CString := "!%c%s%s%c   /A=%06.0f%s".toList

/-- The `ax25_frame` call of ax25beacon.c, from the position scaling on;
`none` when a conversion to `uint32_t` is undefined. -/
def beacon_frame_call (v : BeaconLocals) : Option FrameCall :=
  match beacon_lat_int v.latitude, beacon_lon_int v.longitude with
  | some lat, some lon =>
      some { ax25 := v.ax25, scallsign := v.src_callsign, dcallsign := v.dst_callsign,
             path1 := v.path1, path2 := v.path2, data := beacon_data,
             args := [PrintfArg.char v.sym_table, PrintfArg.str (ax25_base91enc 4 lat),
                      PrintfArg.str (ax25_base91enc 4 lon), PrintfArg.char v.sym_code,
                      PrintfArg.double (scale_altitude v.altitude),
                      PrintfArg.str (v.comment.getD [])] }
  | _, _ => none

/-- The statement `if(ax25.samplerate % ax25.bitrate != 0) printf(...)`: what it
prints, for a bit rate that is not zero. -/
def rate_check (ax25 : ax25_t) : List Msg :=
  if ax25.samplerate % ax25.bitrate ≠ 0 then
    [Msg.rate_warning ax25.samplerate ax25.bitrate]
  else []

/-- The function `main` of ax25beacon.c, for the `getopt` results `opts` and the
positional arguments `argv[optind ..]`. -/
def beacon_main (env : Env) (opts : List GetoptEvent) (argv : List CString) : Run :=
  match beacon_args env opts argv with
  | .error err => Run.exited err
  | .ok v =>
    let o : AoOpen := { rate := v.ax25.samplerate, wavfile := v.wavfile }
    if env.ao_open o = false then
      { stderr := [Msg.text "Error opening output\n"], stdout := [], opened := some o,
        frame := none, status := some (-1) }
    else if v.ax25.bitrate = 0 then
      { stderr := [], stdout := [], opened := some o, frame := none, status := none }
    else
      match beacon_frame_call v with
      | none =>
          { stderr := [], stdout := rate_check v.ax25, opened := some o, frame := none,
            status := none }
      | some c =>
          { stderr := [], stdout := rate_check v.ax25, opened := some o, frame := some c,
            status := some 0 }

/-! ## ax25frame.c -/

/-- The locals of `main` in ax25frame.c that the option loop assigns. -/
structure FrameOpts where
  ax25 : ax25_t
  wavfile : Option CString
  src_callsign : Option CString
  dst_callsign : Option CString
  path1 : Option CString
  path2 : Option CString

/-- The locals as initialised at the head of `main`, after `ax25_init`. -/
def frame_init (env : Env) : FrameOpts :=
  { ax25 := env.init, wavfile := none, src_callsign := none, dst_callsign := none,
    path1 := none, path2 := none }

/-- The body of the `switch` in ax25frame.c. -/
def frame_switch (env : Env) (v : FrameOpts) (e : GetoptEvent) :
    Except (List Msg) FrameOpts :=
  if e.x = 's' then
    if v.src_callsign.isSome then .error (_die "Only one sender callsign can be used\n")
    else .ok { v with src_callsign := some e.optarg }
  else if e.x = 'd' then
    if v.dst_callsign.isSome then
      .error (_die "Only one destination callsign can be used\n")
    else .ok { v with dst_callsign := some e.optarg }
  else if e.x = 'p' then
    if v.path1.isNone then .ok { v with path1 := some e.optarg }
    else if v.path2.isNone then .ok { v with path2 := some e.optarg }
    else .error (_die "Error: More than 2 paths specified\n")
  else if e.x = 'r' then
    .ok { v with ax25 := { v.ax25 with samplerate := to_uint16 (env.atoi e.optarg) } }
  else if e.x = 'o' then
    if v.wavfile.isSome then .error (_die "Only one output WAV file can be used\n")
    else .ok { v with wavfile := some e.optarg }
  else if e.x = '?' then .error _usage
  else .ok v

/-- The `while((x = getopt(...)) != -1)` loop of ax25frame.c. -/
def frame_getopt (env : Env) : FrameOpts → List GetoptEvent → Except (List Msg) FrameOpts
  | v, [] => .ok v
  | v, e :: es =>
      match frame_switch env v e with
      | .ok w => frame_getopt env w es
      | .error err => .error err

/-- The locals of `main` in ax25frame.c once the command line is read; `data` is
`argv[optind]`. -/
structure FrameLocals where
  ax25 : ax25_t
  wavfile : Option CString
  src_callsign : CString
  dst_callsign : CString
  path1 : Option CString
  path2 : Option CString
  data : CString

/-- The part of `main` in ax25frame.c that reads the command line. -/
def frame_args (env : Env) (opts : List GetoptEvent) (argv : List CString) :
    Except (List Msg) FrameLocals :=
  match frame_getopt env (frame_init env) opts with
  | .error err => .error err
  | .ok v =>
    match v.src_callsign with
    | none => .error (_die "No sender callsign specified\n")
    | some src =>
      match v.dst_callsign with
      | none => .error (_die "No destination callsign specified\n")
      | some dst =>
        match argv with
        | [a0] =>
            .ok { ax25 := v.ax25, wavfile := v.wavfile, src_callsign := src,
                  dst_callsign := dst, path1 := v.path1, path2 := v.path2, data := a0 }
        | _ => .error _usage

/-- The `ax25_frame` call of ax25frame.c. -/
def frame_frame_call (v : FrameLocals) : FrameCall :=
  { ax25 := v.ax25, scallsign := v.src_callsign, dcallsign := v.dst_callsign,
    path1 := v.path1, path2 := v.path2, data := "%s".toList,
    args := [PrintfArg.str v.data] }

/-- The function `main` of ax25frame.c. -/
def frame_main (env : Env) (opts : List GetoptEvent) (argv : List CString) : Run :=
  match frame_args env opts argv with
  | .error err => Run.exited err
  | .ok v =>
    let o : AoOpen := { rate := v.ax25.samplerate, wavfile := v.wavfile }
    if env.ao_open o = false then
      { stderr := [Msg.text "Error opening output\n"], stdout := [], opened := some o,
        frame := none, status := some (-1) }
    else if v.ax25.bitrate = 0 then
      { stderr := [], stdout := [], opened := some o, frame := none, status := none }
    else
      { stderr := [], stdout := rate_check v.ax25, opened := some o,
        frame := some (frame_frame_call v), status := some 0 }

/-! ## The encoder entry point, from the specification -/

/-- The outcome of a transmission: the OK result and the three error conditions
of the specification. -/
inductive TransmitResult where
  | ok
  | outOfMemory
  | frameTooLarge
  | sinkFailure
deriving DecidableEq, Repr

/-- A station identity: a callsign of at most 6 characters and an SSID in 0..15. -/
structure Address where
  callsign : CString
  ssid : Nat
  callsign_le : callsign.length ≤ 6
  ssid_le : ssid ≤ 15

/-- The 7 octets of an address: the callsign padded with spaces to 6 characters,
each shifted left by one bit, then the octet with bit 7 clear at origination,
bits 6 and 5 set, the SSID in bits 4..1 and the last-address flag in bit 0. -/
def address_octets (a : Address) (last : Bool) : List Nat :=
  (a.callsign ++ List.replicate (6 - a.callsign.length) ' ').map
      (fun c => (c.toNat * 2) % 256)
    ++ [96 + a.ssid * 2 + (if last then 1 else 0)]

/-- The address field: destination, source, then the path entries in order, the
last of all of them carrying the last-address flag. -/
def address_field (dst src : Address) (path : List Address) : List Nat :=
  let addrs : List Address := dst :: src :: path
  (addrs.dropLast.map (fun a => address_octets a false)).flatten ++
    address_octets (addrs.getLast (List.cons_ne_nil dst (src :: path))) true

/-- One bit of the frame-check sequence: reflected polynomial 0x8408. -/
def fcs_bit (crc : Nat) (bit : Nat) : Nat :=
  if (crc ^^^ bit) % 2 = 1 then (crc / 2) ^^^ 0x8408 else crc / 2

/-- One octet of the frame-check sequence, least significant bit first. -/
def fcs_octet (crc : Nat) (octet : Nat) : Nat :=
  (List.range 8).foldl (fun c i => fcs_bit c (octet / 2 ^ i)) crc

/-- The frame-check sequence: initial value 0xFFFF, complemented at the end. -/
def fcs (octets : List Nat) : Nat := (octets.foldl fcs_octet 0xFFFF) ^^^ 0xFFFF

/-- The octets covered by the frame-check sequence: addresses, the control octet
of a UI frame, the PID octet for no layer 3, and the payload. -/
def frame_body (dst src : Address) (path : List Address) (payload : CString) : List Nat :=
  address_field dst src path ++ [0x03, 0xF0] ++ payload.map (fun c => c.toNat % 256)

/-- The frame builder: the body followed by the frame-check sequence, low octet
first; a payload or an assembled frame above `AX25_MAX_LEN` is refused. -/
def frame_builder (dst src : Address) (path : List Address) (payload : CString) :
    Except TransmitResult (List Nat) :=
  let body := frame_body dst src path payload
  let frame := body ++ [fcs body % 256, fcs body / 256]
  if AX25_MAX_LEN < payload.length ∨ AX25_MAX_LEN < frame.length then
    .error TransmitResult.frameTooLarge
  else .ok frame

/-- The chunks handed to the sink one after the other, up to and including the
first one the sink refuses, and whether all were accepted. The sink sees the
position of each chunk. -/
def deliver (sink : Nat → List Int → Bool) : Nat → List (List Int) → List (List Int) × Bool
  | _, [] => ([], true)
  | i, chunk :: chunks =>
      if sink i chunk then
        let r := deliver sink (i + 1) chunks
        (chunk :: r.1, r.2)
      else ([chunk], false)

/-- What a call of `ax25_frame` does: its result and the chunks of samples it
handed to the audio callback. -/
structure Transmission where
  result : TransmitResult
  delivered : List (List Int)

/-- Modelled from the spec: the body of `ax25_frame`, of which the sources hold
only the declaration in ax25.h. The payload is formatted, the frame is built,
and the framed octets are rendered to chunks of samples pushed to the sink.
Bit stuffing, line coding and tone synthesis are the parameter `modulate`; the
addresses are the validated `Address` values of the data model, with a path of
at most 2 entries; allocation is taken to succeed. `none` is an undefined format
expansion. -/
def ax25_frame (modulate : ax25_t → List Nat → List (List Int))
    (sink : Nat → List Int → Bool) (ax25 : ax25_t) (src dst : Address)
    (path1 path2 : Option Address) (data : CString) (args : List PrintfArg) :
    Option Transmission :=
  match format data args with
  | none => none
  | some payload =>
    match frame_builder dst src (path1.toList ++ path2.toList) payload with
    | .error e => some { result := e, delivered := [] }
    | .ok frame =>
      let r := deliver sink 0 (modulate ax25 frame)
      some { result := if r.2 then TransmitResult.ok else TransmitResult.sinkFailure,
             delivered := r.1 }

/-! ## Notions used to state the properties -/

/-- The arguments given to the option `x`, in command-line order. -/
def optargs (x : Char) (opts : List GetoptEvent) : List CString :=
  (opts.filter (fun e => e.x = x)).map (fun e => e.optarg)

/-- The value of a run of decimal digits at the head of a string. -/
def digits_value : CString → Nat → Nat
  | [], acc => acc
  | c :: cs, acc => if c.isDigit then digits_value cs (acc * 10 + (c.toNat - 48)) else acc

/-- An `atoi` for the examples: an optional minus sign and decimal digits. -/
def example_atoi (s : CString) : Int :=
  match s with
  | '-' :: cs => -(digits_value cs 0 : Int)
  | cs => (digits_value cs 0 : Int)

/-- The numerator of a decimal numeral `[-]digits[.digits]`: its digits read as
one integer, with the sign. -/
def decimal_num (s : CString) : Int :=
  match s with
  | '-' :: cs => -(digits_value (cs.filter (fun c => c != '.')) 0 : Int)
  | cs => (digits_value (cs.filter (fun c => c != '.')) 0 : Int)

/-- The denominator of a decimal numeral: 10 to the number of digits after the
point. -/
def decimal_den (s : CString) : Nat :=
  10 ^ ((s.dropWhile (fun c => c != '.')).length - 1)

/-- An `atof` for the examples: decimal numerals without exponent, rounded to
the nearest `double`; a zero keeps the sign written. -/
def example_atof (s : CString) : CFloat :=
  if decimal_num s = 0 then (if s.head? = some '-' then CFloat.negzero else CFloat.num 0)
  else round_to binary64 ((decimal_num s : ℚ) / (decimal_den s : ℚ))

/-- An environment for the examples: `ax25_init` leaves the documented defaults
(48000 Hz, 1200 bit/s, tones of 1200 and 2200 Hz, 25 preamble and 5 rest bytes)
and every output opens. -/
def example_env : Env :=
  { init := { samplerate := 48000, bitrate := 1200, freq1 := 1200, freq2 := 2200,
              preamble := 25, rest := 5 },
    atoi := example_atoi, atof := example_atof, ao_open := fun _ => true }

/-- The options of the command line of the usage text,
`ax25beacon -s MYCALL -- 54.61 -6.40 0`. -/
def usage_opts : List GetoptEvent := [⟨'s', "MYCALL".toList⟩]

/-- The positional arguments of the command line of the usage text. -/
def usage_argv : List CString := ["54.61".toList, "-6.40".toList, "0".toList]

/-- The locals of ax25beacon for the command line of the usage text. -/
def usage_locals : BeaconLocals :=
  { ax25 := example_env.init, wavfile := none, src_callsign := "MYCALL".toList,
    dst_callsign := "APRS".toList, path1 := none, path2 := none, sym_table := '/',
    sym_code := 'O', latitude := CFloat.num (3578921 / 65536),
    longitude := CFloat.num (-13421773 / 2097152),
    altitude := CFloat.num 0,
    comment := none }

/-- The `ax25_frame` call of ax25beacon for the command line of the usage text. -/
def usage_call : FrameCall :=
  { ax25 := example_env.init, scallsign := "MYCALL".toList, dcallsign := "APRS".toList,
    path1 := none, path2 := none, data := beacon_data,
    args := [PrintfArg.char '/', PrintfArg.str (ax25_base91enc 4 13480971),
             PrintfArg.str (ax25_base91enc 4 33064376), PrintfArg.char 'O',
             PrintfArg.double (CFloat.num 0), PrintfArg.str []] }

theorem char_toNat_ofNat (n : Nat) (h : n < 55296) : (Char.ofNat n).toNat = n := by
  unfold Char.ofNat
  have hv : n.isValidChar := Or.inl h
  rw [dif_pos hv]
  simp only [Char.ofNatAux, Char.toNat, UInt32.toNat]
  show (BitVec.ofNatLt n _).toNat = n
  simp

theorem base91_char_range (d : Nat) (h : d < 91) :
    '!' ≤ Char.ofNat (33 + d) ∧ Char.ofNat (33 + d) ≤ Char.ofNat 123 := by
  interval_cases d <;> decide

theorem base91enc_four (v : Nat) (hv : v < 4294967296) :
    ax25_base91enc 4 v =
      [Char.ofNat (33 + v / 753571 % 91), Char.ofNat (33 + v / 8281 % 91),
       Char.ofNat (33 + v / 91 % 91), Char.ofNat (33 + v % 91)] := by
  have h1 : v / 91 / 91 = v / 8281 := by omega
  have h2 : v / 8281 / 91 = v / 753571 := by omega
  simp [ax25_base91enc, base91_digits, Nat.mod_eq_of_lt hv, h1, h2]

theorem base91enc_length (v : Nat) (hv : v < 4294967296) :
    (ax25_base91enc 4 v).length = 4 := by
  rw [base91enc_four v hv]; rfl

theorem base91enc_positional (v : Nat) (hv : v < 91 ^ 4) :
    ∃ c0 c1 c2 c3, ax25_base91enc 4 v = [c0, c1, c2, c3] ∧
      (c0.toNat - 33) * 91 ^ 3 + (c1.toNat - 33) * 91 ^ 2 + (c2.toNat - 33) * 91 ^ 1
        + (c3.toNat - 33) * 91 ^ 0 = v := by
  have hv32 : v < 4294967296 := lt_trans hv (by norm_num)
  refine ⟨_, _, _, _, base91enc_four v hv32, ?_⟩
  have m0 := Nat.mod_lt (v / 753571) (show 0 < 91 by decide)
  have m1 := Nat.mod_lt (v / 8281) (show 0 < 91 by decide)
  have m2 := Nat.mod_lt (v / 91) (show 0 < 91 by decide)
  have m3 := Nat.mod_lt v (show 0 < 91 by decide)
  rw [char_toNat_ofNat _ (by omega), char_toNat_ofNat _ (by omega),
    char_toNat_ofNat _ (by omega), char_toNat_ofNat _ (by omega)]
  norm_num at hv ⊢
  omega

/-- C3: for every unsigned 32-bit value `v`, `ax25_base91enc(s, 4, v)` writes
exactly 4 characters, most significant digit first, the k-th being the character
33 + ((v / 91^(3-k)) mod 91); every character lies between the exclamation mark
(33) and the opening brace (123); a value below 91^4 is the positional sum of its
digits; a value from 91^4 on is encoded as its remainder modulo 91^4; 0 gives four
exclamation marks and 91^4 - 1 gives four opening braces. -/
theorem ax25_base91enc_width4 (v : Nat) (hv : v < 4294967296) :
    (ax25_base91enc 4 v).length = 4 ∧
    (∀ k, k < 4 →
      (ax25_base91enc 4 v)[k]? = some (Char.ofNat (33 + v / 91 ^ (3 - k) % 91))) ∧
    (∀ c ∈ ax25_base91enc 4 v, '!' ≤ c ∧ c ≤ Char.ofNat 123) ∧
    (v < 91 ^ 4 → ∃ c0 c1 c2 c3, ax25_base91enc 4 v = [c0, c1, c2, c3] ∧
      (c0.toNat - 33) * 91 ^ 3 + (c1.toNat - 33) * 91 ^ 2 + (c2.toNat - 33) * 91 ^ 1
        + (c3.toNat - 33) * 91 ^ 0 = v) ∧
    (91 ^ 4 ≤ v → ax25_base91enc 4 v = ax25_base91enc 4 (v % 91 ^ 4)) ∧
    ax25_base91enc 4 0 = "!!!!".toList ∧
    ax25_base91enc 4 (91 ^ 4 - 1) = List.replicate 4 (Char.ofNat 123) := by
  have hlist := base91enc_four v hv
  refine ⟨base91enc_length v hv, ?_, ?_, base91enc_positional v, ?_, ?_, ?_⟩
  · intro k hk
    rw [hlist]
    interval_cases k <;> simp
  · intro c hc
    rw [hlist] at hc
    simp only [List.mem_cons, List.mem_singleton, List.not_mem_nil, or_false] at hc
    rcases hc with h | h | h | h <;>
      (rw [h]; exact base91_char_range _ (Nat.mod_lt _ (by decide)))
  · intro _
    have hm : v % 91 ^ 4 < 4294967296 := lt_of_le_of_lt (Nat.mod_le _ _) hv
    have e0 : v % 91 ^ 4 / 753571 % 91 = v / 753571 % 91 := by norm_num; omega
    have e1 : v % 91 ^ 4 / 8281 % 91 = v / 8281 % 91 := by norm_num; omega
    have e2 : v % 91 ^ 4 / 91 % 91 = v / 91 % 91 := by norm_num; omega
    have e3 : v % 91 ^ 4 % 91 = v % 91 := by norm_num
    rw [hlist, base91enc_four _ hm, e0, e1, e2, e3]
  · decide
  · decide

/-- The longitude of the APRS reference example, 20427156, is encoded in 4
characters. -/
theorem ax25_base91enc_width4_witness :
    20427156 < 4294967296 ∧ (ax25_base91enc 4 20427156).length = 4 :=
  ⟨by decide, (ax25_base91enc_width4 20427156 (by decide)).1⟩

/-! ## Rounding to a binary format -/

theorem round_half_even_near (x : ℚ) (h0 : 0 ≤ x) :
    |(round_half_even x : ℚ) - x| ≤ 1 / 2 := by
  have hf0 : 0 ≤ ⌊x⌋ := Int.floor_nonneg.mpr h0
  have hcast : ((⌊x⌋.toNat : Nat) : ℚ) = (⌊x⌋ : ℚ) := by
    have : ((⌊x⌋.toNat : Nat) : Int) = ⌊x⌋ := Int.toNat_of_nonneg hf0
    exact_mod_cast this
  have hle := Int.floor_le x
  have hlt := Int.lt_floor_add_one x
  unfold round_half_even
  simp only
  rw [abs_le]
  split_ifs with h1 h2 h3
  · rw [hcast] at h1 ⊢; constructor <;> linarith
  · push_cast; rw [hcast] at h2 ⊢; constructor <;> linarith
  · rw [hcast] at h1 h2 ⊢; constructor <;> linarith
  · push_cast; rw [hcast] at h1 h2 ⊢; constructor <;> linarith

theorem round_half_even_le (y : ℚ) (M : Nat) (h0 : 0 ≤ y) (h : y ≤ M) :
    round_half_even y ≤ M := by
  have hn := round_half_even_near y h0
  rw [abs_le] at hn
  have : (round_half_even y : ℚ) < (M : ℚ) + 1 := by linarith [hn.2]
  have h2 : round_half_even y < M + 1 := by exact_mod_cast this
  omega

theorem quantum_pos (f : BinaryFormat) (x : ℚ) : 0 < quantum f x := by
  unfold quantum
  positivity

theorem round_mag_nonneg (f : BinaryFormat) (x : ℚ) : 0 ≤ round_mag f x := by
  unfold round_mag
  have := quantum_pos f x
  positivity

/-- Below a bound of exponent `K + p - 1` the quantum divides `2 ^ K`. -/
theorem quantum_dvd (f : BinaryFormat) (x : ℚ) (K : Int) (hx : 0 < x)
    (hlt : x < (2 : ℚ) ^ (K + f.p)) (hemin : f.emin ≤ K + f.p - 1) :
    ∃ d : Nat, (2 : ℚ) ^ K = 2 ^ d * quantum f x := by
  have hlog : Int.log 2 x < K + f.p := by
    have := (Int.lt_zpow_iff_log_lt (R := ℚ) (b := 2) (by norm_num) hx).mp
      (by simpa using hlt)
    exact this
  have he : max (Int.log 2 x) f.emin - f.p + 1 ≤ K := by
    have : max (Int.log 2 x) f.emin ≤ K + f.p - 1 := max_le (by omega) hemin
    omega
  refine ⟨(K - (max (Int.log 2 x) f.emin - f.p + 1)).toNat, ?_⟩
  unfold quantum
  rw [← zpow_natCast, ← zpow_add₀ (by norm_num : (2 : ℚ) ≠ 0)]
  congr 1
  rw [Int.toNat_of_nonneg (by omega)]
  ring

/-- Rounding stays below a representable bound and within half its quantum. -/
theorem round_mag_range (f : BinaryFormat) (x : ℚ) (N : Nat) (K : Int) (hx : 0 < x)
    (hle : x ≤ N * (2 : ℚ) ^ K) (hlt : N * (2 : ℚ) ^ K < (2 : ℚ) ^ (K + f.p))
    (hemin : f.emin ≤ K + f.p - 1) :
    round_mag f x ≤ N * (2 : ℚ) ^ K ∧ |round_mag f x - x| ≤ (2 : ℚ) ^ K / 2 := by
  obtain ⟨d, hd⟩ := quantum_dvd f x K hx (lt_of_le_of_lt hle hlt) hemin
  have hq := quantum_pos f x
  have hy0 : 0 ≤ x / quantum f x := by positivity
  have hyM : x / quantum f x ≤ ((N * 2 ^ d : Nat) : ℚ) := by
    rw [div_le_iff₀ hq]
    push_cast
    calc x ≤ N * (2 : ℚ) ^ K := hle
      _ = N * 2 ^ d * quantum f x := by rw [hd]; ring
  have h1 := round_half_even_le _ _ hy0 hyM
  have h1q : (round_half_even (x / quantum f x) : ℚ) ≤ ((N * 2 ^ d : Nat) : ℚ) := by
    exact_mod_cast h1
  have hn := round_half_even_near _ hy0
  constructor
  · unfold round_mag
    calc (round_half_even (x / quantum f x) : ℚ) * quantum f x
        ≤ ((N * 2 ^ d : Nat) : ℚ) * quantum f x :=
          mul_le_mul_of_nonneg_right h1q hq.le
      _ = N * (2 : ℚ) ^ K := by rw [hd]; push_cast; ring
  · unfold round_mag
    have hqK : quantum f x ≤ (2 : ℚ) ^ K := by
      rw [hd]
      have : (1 : ℚ) ≤ 2 ^ d := one_le_pow₀ (by norm_num)
      nlinarith
    have e : (round_half_even (x / quantum f x) : ℚ) * quantum f x - x =
        ((round_half_even (x / quantum f x) : ℚ) - x / quantum f x) * quantum f x := by
      field_simp
    rw [e, abs_mul, abs_of_pos hq]
    calc |(round_half_even (x / quantum f x) : ℚ) - x / quantum f x| * quantum f x
        ≤ 1 / 2 * quantum f x := mul_le_mul_of_nonneg_right hn hq.le
      _ ≤ (2 : ℚ) ^ K / 2 := by linarith

/-- A value between 0 and a representable bound rounds to a number in the same
range, within half the quantum of the bound. -/
theorem round_to_range (f : BinaryFormat) (v : ℚ) (N : Nat) (K : Int) (h0 : 0 ≤ v)
    (hle : v ≤ N * (2 : ℚ) ^ K) (hlt : N * (2 : ℚ) ^ K < (2 : ℚ) ^ (K + f.p))
    (hemin : f.emin ≤ K + f.p - 1) (hmax : N * (2 : ℚ) ^ K < (2 : ℚ) ^ (f.emax + 1)) :
    ∃ r, round_to f v = CFloat.num r ∧ 0 ≤ r ∧ r ≤ N * (2 : ℚ) ^ K ∧
      |r - v| ≤ (2 : ℚ) ^ K / 2 := by
  have hK : (0 : ℚ) < 2 ^ K := by positivity
  by_cases hv : v = 0
  · subst hv
    refine ⟨0, by simp [round_to], le_refl 0, h0.trans hle, ?_⟩
    simp; positivity
  · have hpos : 0 < v := lt_of_le_of_ne h0 (Ne.symm hv)
    have habs : |v| = v := abs_of_pos hpos
    obtain ⟨r1, r2⟩ := round_mag_range f v N K hpos hle hlt hemin
    have hnov : ¬ (2 : ℚ) ^ (f.emax + 1) ≤ round_mag f v := not_le.mpr (lt_of_le_of_lt r1 hmax)
    have hnn : ¬ v < 0 := not_lt.mpr h0
    by_cases hr0 : round_mag f v = 0
    · have hp2 : (0 : ℚ) < 2 ^ (f.emax + 1) := by positivity
      refine ⟨0, by simp [round_to, hv, habs, hr0, hnn, hp2], le_refl 0, h0.trans hle, ?_⟩
      rw [hr0] at r2; exact r2
    · refine ⟨round_mag f v, by simp [round_to, hv, habs, hnov, hr0, hnn],
        round_mag_nonneg f v, r1, r2⟩

theorem round_half_even_eq (y : ℚ) (m : Nat) (h0 : 0 ≤ y) (h : |(m : ℚ) - y| < 1 / 2) :
    round_half_even y = m := by
  have hn := round_half_even_near y h0
  rw [abs_le] at hn
  rw [abs_lt] at h
  have h1 : (round_half_even y : ℚ) < (m : ℚ) + 1 := by linarith [hn.2, h.1]
  have h2 : (m : ℚ) < (round_half_even y : ℚ) + 1 := by linarith [hn.1, h.2]
  have h3 : round_half_even y < m + 1 := by exact_mod_cast h1
  have h4 : m < round_half_even y + 1 := by exact_mod_cast h2
  omega

/-- The rounding of a positive magnitude whose exponent `e` and nearest multiple `m`
of the quantum are known. -/
theorem round_mag_eval (f : BinaryFormat) (x : ℚ) (e : Int) (m : Nat) (hx : 0 < x)
    (he1 : (2 : ℚ) ^ e ≤ x) (he2 : x < (2 : ℚ) ^ (e + 1)) (hemin : f.emin ≤ e)
    (hm : |(m : ℚ) - x / (2 : ℚ) ^ (e - f.p + 1)| < 1 / 2) :
    round_mag f x = m * (2 : ℚ) ^ (e - f.p + 1) := by
  have hlog : Int.log 2 x = e := by
    apply le_antisymm
    · have := (Int.lt_zpow_iff_log_lt (R := ℚ) (b := 2) (by norm_num) hx).mp
        (by simpa using he2)
      omega
    · exact (Int.zpow_le_iff_le_log (R := ℚ) (b := 2) (by norm_num) hx).mp
        (by simpa using he1)
  have hq : quantum f x = (2 : ℚ) ^ (e - f.p + 1) := by
    unfold quantum
    rw [hlog, max_eq_left hemin]
  unfold round_mag
  rw [hq, round_half_even_eq _ m (by positivity) hm]

theorem round_to_eval_pos (f : BinaryFormat) (v r : ℚ) (e : Int) (m : Nat) (hv : 0 < v)
    (he1 : (2 : ℚ) ^ e ≤ v) (he2 : v < (2 : ℚ) ^ (e + 1)) (hemin : f.emin ≤ e)
    (hm : |(m : ℚ) - v / (2 : ℚ) ^ (e - f.p + 1)| < 1 / 2)
    (hr : r = m * (2 : ℚ) ^ (e - f.p + 1)) (hr0 : 0 < r)
    (hmax : r < (2 : ℚ) ^ (f.emax + 1)) :
    round_to f v = CFloat.num r := by
  have hm' := round_mag_eval f v e m hv he1 he2 hemin hm
  rw [← hr] at hm'
  have hnn : ¬ v < 0 := not_lt.mpr hv.le
  simp [round_to, hv.ne', abs_of_pos hv, hm', not_le.mpr hmax, hr0.ne', hnn]

theorem round_to_eval_neg (f : BinaryFormat) (v r : ℚ) (e : Int) (m : Nat) (hv : v < 0)
    (he1 : (2 : ℚ) ^ e ≤ -v) (he2 : -v < (2 : ℚ) ^ (e + 1)) (hemin : f.emin ≤ e)
    (hm : |(m : ℚ) - -v / (2 : ℚ) ^ (e - f.p + 1)| < 1 / 2)
    (hr : -r = m * (2 : ℚ) ^ (e - f.p + 1)) (hr0 : r < 0)
    (hmax : -r < (2 : ℚ) ^ (f.emax + 1)) :
    round_to f v = CFloat.num r := by
  have hm' := round_mag_eval f (-v) e m (by linarith) he1 he2 hemin hm
  rw [← hr] at hm'
  have hne : -r ≠ 0 := by linarith
  simp [round_to, hv.ne, abs_of_neg hv, hm', not_le.mpr hmax, hne, hv]

/-! ## Position scaling -/

theorem to_uint32_of_nonneg (x : ℚ) (h0 : 0 ≤ x) (h1 : x < 4294967296) :
    to_uint32 (CFloat.num x) = some ⌊x⌋.toNat := by
  have hf0 : 0 ≤ ⌊x⌋ := Int.floor_nonneg.mpr h0
  have hf1 : ⌊x⌋ < 4294967296 := by
    have : (⌊x⌋ : ℚ) < 4294967296 := lt_of_le_of_lt (Int.floor_le x) h1
    exact_mod_cast this
  simp [to_uint32, h0, hf0, hf1]

theorem floor_toNat_le (x : ℚ) (b : Nat) (h0 : 0 ≤ x) (h1 : x ≤ b) : ⌊x⌋.toNat ≤ b := by
  have hf0 : 0 ≤ ⌊x⌋ := Int.floor_nonneg.mpr h0
  have : (⌊x⌋ : ℚ) ≤ b := le_trans (Int.floor_le x) h1
  have h2 : ⌊x⌋ ≤ (b : Int) := by exact_mod_cast this
  omega

/-- The product with the scale factor, rounded to `double` and stored into the
`float`: it stays in [0, 68566680] and within 4 + 2^-27 of the exact product. -/
theorem scaled_store (k u r1 ε : ℚ) (hk : 0 < k) (h0 : 0 ≤ r1)
    (hprod : r1 * k ≤ 68566680) (herr : |r1 - u| ≤ ε) :
    ∃ s, store_float (double_mul_const k (CFloat.num r1)) = CFloat.num s ∧ 0 ≤ s ∧
      s ≤ 68566680 ∧ |s - u * k| ≤ 4 + 1 / 2 ^ 27 + k * ε := by
  obtain ⟨r2, e2, p2, q2, d2⟩ := round_to_range binary64 (r1 * k) (68566680 * 2 ^ 26) (-26)
    (by positivity) (by norm_num; exact hprod) (by norm_num [binary64])
    (by norm_num [binary64]) (by norm_num [binary64])
  obtain ⟨s, e3, p3, q3, d3⟩ := round_to_range binary32 r2 8570835 3 p2
    (by norm_num at q2 ⊢; exact q2) (by norm_num [binary32]) (by norm_num [binary32])
    (by norm_num [binary32])
  refine ⟨s, ?_, p3, by norm_num at q3; exact q3, ?_⟩
  · show store_float (round_to binary64 (r1 * k)) = _
    rw [e2]
    exact e3
  · have t1 : |s - u * k| ≤ |s - r2| + |r2 - r1 * k| + |r1 * k - u * k| := by
      have e : s - u * k = (s - r2) + (r2 - r1 * k) + (r1 * k - u * k) := by ring
      rw [e]
      exact (abs_add _ _).trans (add_le_add_right (abs_add _ _) _)
    have t2 : |r1 * k - u * k| ≤ k * ε := by
      have e : r1 * k - u * k = (r1 - u) * k := by ring
      rw [e, abs_mul, abs_of_pos hk, mul_comm]
      exact mul_le_mul_of_nonneg_left herr hk.le
    norm_num at d2 d3
    linarith

/-- The value stored by `latitude = (90.0 - latitude) * 380926` for a latitude
between -90 and 90. -/
theorem scale_latitude_value (latitude : CFloat) (x : ℚ) (hval : latitude.value = some x)
    (h0 : -90 ≤ x) (h1 : x ≤ 90) :
    ∃ s, scale_latitude latitude = CFloat.num s ∧ 0 ≤ s ∧ s ≤ 68566680 ∧
      |s - (90 - x) * 380926| ≤ 4 + 1 / 1000000 := by
  have key : ∃ r1, double_const_sub 90 latitude = CFloat.num r1 ∧ 0 ≤ r1 ∧ r1 ≤ 180 ∧
      |r1 - (90 - x)| ≤ 1 / 2 ^ 46 := by
    cases latitude with
    | num v =>
      simp only [CFloat.value, Option.some.injEq] at hval
      subst hval
      obtain ⟨r1, e1, p1, q1, d1⟩ := round_to_range binary64 (90 - v) (180 * 2 ^ 45) (-45)
        (by linarith) (by norm_num; linarith) (by norm_num [binary64])
        (by norm_num [binary64]) (by norm_num [binary64])
      exact ⟨r1, e1, p1, by norm_num at q1; exact q1, by norm_num at d1 ⊢; exact d1⟩
    | negzero =>
      simp only [CFloat.value, Option.some.injEq] at hval
      subst hval
      exact ⟨90, rfl, by norm_num, by norm_num, by norm_num⟩
    | inf neg => simp [CFloat.value] at hval
    | nan => simp [CFloat.value] at hval
  obtain ⟨r1, e1, p1, q1, d1⟩ := key
  obtain ⟨s, es, ps, qs, ds⟩ := scaled_store 380926 (90 - x) r1 (1 / 2 ^ 46) (by norm_num) p1
    (by linarith) d1
  refine ⟨s, by rw [scale_latitude, e1]; exact es, ps, qs, ?_⟩
  norm_num at ds ⊢
  linarith

/-- The value stored by `longitude = (180.0 + longitude) * 190463` for a
longitude between -180 and 180. -/
theorem scale_longitude_value (longitude : CFloat) (y : ℚ)
    (hval : longitude.value = some y) (h0 : -180 ≤ y) (h1 : y ≤ 180) :
    ∃ t, scale_longitude longitude = CFloat.num t ∧ 0 ≤ t ∧ t ≤ 68566680 ∧
      |t - (180 + y) * 190463| ≤ 4 + 1 / 1000000 := by
  have key : ∃ r1, double_const_add 180 longitude = CFloat.num r1 ∧ 0 ≤ r1 ∧ r1 ≤ 360 ∧
      |r1 - (180 + y)| ≤ 1 / 2 ^ 45 := by
    cases longitude with
    | num v =>
      simp only [CFloat.value, Option.some.injEq] at hval
      subst hval
      obtain ⟨r1, e1, p1, q1, d1⟩ := round_to_range binary64 (180 + v) (360 * 2 ^ 44) (-44)
        (by linarith) (by norm_num; linarith) (by norm_num [binary64])
        (by norm_num [binary64]) (by norm_num [binary64])
      exact ⟨r1, e1, p1, by norm_num at q1; exact q1, by norm_num at d1 ⊢; exact d1⟩
    | negzero =>
      simp only [CFloat.value, Option.some.injEq] at hval
      subst hval
      exact ⟨180, rfl, by norm_num, by norm_num, by norm_num⟩
    | inf neg => simp [CFloat.value] at hval
    | nan => simp [CFloat.value] at hval
  obtain ⟨r1, e1, p1, q1, d1⟩ := key
  obtain ⟨t, et, pt, qt, dt⟩ := scaled_store 190463 (180 + y) r1 (1 / 2 ^ 45) (by norm_num) p1
    (by linarith) d1
  refine ⟨t, by rw [scale_longitude, e1]; exact et, pt, qt, ?_⟩
  norm_num at dt ⊢
  linarith

/-! ## Concrete positions and altitudes

Each rounding below is checked from the exponent of the value and the nearest
multiple of its quantum. -/

theorem zero_arg_atof : example_atof "0".toList = CFloat.num 0 := by
  have h1 : decimal_num "0".toList = 0 := by decide
  have h2 : ("0".toList).head? ≠ some '-' := by decide
  rw [example_atof, if_pos h1, if_neg h2]

theorem zero_arg_var : store_float (CFloat.num 0) = CFloat.num 0 := by
  simp [store_float, double_const_sub, double_const_add, double_mul_const, round_to]

theorem lon_one_add :
    double_const_add 180 (CFloat.num 1) = CFloat.num 181 := by
  show round_to binary64 (180 + 1) = _
  exact round_to_eval_pos binary64 _ _ 7 6368371348078592 (by norm_num) (by norm_num)
    (by norm_num) (by norm_num [binary64]) (by norm_num [binary64, abs_lt])
    (by norm_num [binary64]) (by norm_num) (by norm_num [binary64])

theorem lon_one_mul :
    double_mul_const 190463 (CFloat.num 181) = CFloat.num 34473803 := by
  show round_to binary64 (181 * 190463) = _
  exact round_to_eval_pos binary64 _ _ 25 4626995514179584 (by norm_num) (by norm_num)
    (by norm_num) (by norm_num [binary64]) (by norm_num [binary64, abs_lt])
    (by norm_num [binary64]) (by norm_num) (by norm_num [binary64])

theorem lon_one_store :
    store_float (CFloat.num 34473803) = CFloat.num 34473804 := by
  show round_to binary32 34473803 = _
  exact round_to_eval_pos binary32 _ _ 25 8618451 (by norm_num) (by norm_num)
    (by norm_num) (by norm_num [binary32]) (by norm_num [binary32, abs_lt])
    (by norm_num [binary32]) (by norm_num) (by norm_num [binary32])

theorem lon_one_scale :
    scale_longitude (CFloat.num 1) = CFloat.num 34473804 := by
  rw [scale_longitude, lon_one_add, lon_one_mul, lon_one_store]

theorem lat_54_375_sub :
    double_const_sub 90 (CFloat.num (435 / 8)) = CFloat.num (285 / 8) := by
  show round_to binary64 (90 - (435 / 8)) = _
  exact round_to_eval_pos binary64 _ _ 5 5013773022658560 (by norm_num) (by norm_num)
    (by norm_num) (by norm_num [binary64]) (by norm_num [binary64, abs_lt])
    (by norm_num [binary64]) (by norm_num) (by norm_num [binary64])

theorem lat_54_375_mul :
    double_mul_const 380926 (CFloat.num (285 / 8)) = CFloat.num (54281955 / 4) := by
  show round_to binary64 ((285 / 8) * 380926) = _
  exact round_to_eval_pos binary64 _ _ 23 7285600671498240 (by norm_num) (by norm_num)
    (by norm_num) (by norm_num [binary64]) (by norm_num [binary64, abs_lt])
    (by norm_num [binary64]) (by norm_num) (by norm_num [binary64])

theorem lat_54_375_store :
    store_float (CFloat.num (54281955 / 4)) = CFloat.num 13570489 := by
  show round_to binary32 (54281955 / 4) = _
  exact round_to_eval_pos binary32 _ _ 23 13570489 (by norm_num) (by norm_num)
    (by norm_num) (by norm_num [binary32]) (by norm_num [binary32, abs_lt])
    (by norm_num [binary32]) (by norm_num) (by norm_num [binary32])

theorem lat_54_375_scale :
    scale_latitude (CFloat.num (435 / 8)) = CFloat.num 13570489 := by
  rw [scale_latitude, lat_54_375_sub, lat_54_375_mul, lat_54_375_store]

theorem lat_south_pole_sub :
    double_const_sub 90 (CFloat.num (-90)) = CFloat.num 180 := by
  show round_to binary64 (90 - (-90)) = _
  exact round_to_eval_pos binary64 _ _ 7 6333186975989760 (by norm_num) (by norm_num)
    (by norm_num) (by norm_num [binary64]) (by norm_num [binary64, abs_lt])
    (by norm_num [binary64]) (by norm_num) (by norm_num [binary64])

theorem lat_south_pole_mul :
    double_mul_const 380926 (CFloat.num 180) = CFloat.num 68566680 := by
  show round_to binary64 (180 * 380926) = _
  exact round_to_eval_pos binary64 _ _ 26 4601432003051520 (by norm_num) (by norm_num)
    (by norm_num) (by norm_num [binary64]) (by norm_num [binary64, abs_lt])
    (by norm_num [binary64]) (by norm_num) (by norm_num [binary64])

theorem lat_south_pole_store :
    store_float (CFloat.num 68566680) = CFloat.num 68566680 := by
  show round_to binary32 68566680 = _
  exact round_to_eval_pos binary32 _ _ 26 8570835 (by norm_num) (by norm_num)
    (by norm_num) (by norm_num [binary32]) (by norm_num [binary32, abs_lt])
    (by norm_num [binary32]) (by norm_num) (by norm_num [binary32])

theorem lat_south_pole_scale :
    scale_latitude (CFloat.num (-90)) = CFloat.num 68566680 := by
  rw [scale_latitude, lat_south_pole_sub, lat_south_pole_mul, lat_south_pole_store]

theorem lon_date_line_add :
    double_const_add 180 (CFloat.num 180) = CFloat.num 360 := by
  show round_to binary64 (180 + 180) = _
  exact round_to_eval_pos binary64 _ _ 8 6333186975989760 (by norm_num) (by norm_num)
    (by norm_num) (by norm_num [binary64]) (by norm_num [binary64, abs_lt])
    (by norm_num [binary64]) (by norm_num) (by norm_num [binary64])

theorem lon_date_line_mul :
    double_mul_const 190463 (CFloat.num 360) = CFloat.num 68566680 := by
  show round_to binary64 (360 * 190463) = _
  exact round_to_eval_pos binary64 _ _ 26 4601432003051520 (by norm_num) (by norm_num)
    (by norm_num) (by norm_num [binary64]) (by norm_num [binary64, abs_lt])
    (by norm_num [binary64]) (by norm_num) (by norm_num [binary64])

theorem lon_date_line_store :
    store_float (CFloat.num 68566680) = CFloat.num 68566680 := by
  show round_to binary32 68566680 = _
  exact round_to_eval_pos binary32 _ _ 26 8570835 (by norm_num) (by norm_num)
    (by norm_num) (by norm_num [binary32]) (by norm_num [binary32, abs_lt])
    (by norm_num [binary32]) (by norm_num) (by norm_num [binary32])

theorem lon_date_line_scale :
    scale_longitude (CFloat.num 180) = CFloat.num 68566680 := by
  rw [scale_longitude, lon_date_line_add, lon_date_line_mul, lon_date_line_store]

theorem usage_lat_atof :
    example_atof "54.61".toList = CFloat.num (3842837119542231 / 70368744177664) := by
  have h1 : decimal_num "54.61".toList = 5461 := by decide
  have h2 : decimal_den "54.61".toList = 100 := by decide
  have h3 : decimal_num "54.61".toList ≠ 0 := by rw [h1]; decide
  rw [example_atof, if_neg h3, h1, h2]
  exact round_to_eval_pos binary64 _ _ 5 7685674239084462 (by norm_num) (by norm_num)
    (by norm_num) (by norm_num [binary64]) (by norm_num [binary64, abs_lt])
    (by norm_num [binary64]) (by norm_num) (by norm_num [binary64])

theorem usage_lat_var :
    store_float (CFloat.num (3842837119542231 / 70368744177664)) = CFloat.num (3578921 / 65536) := by
  show round_to binary32 (3842837119542231 / 70368744177664) = _
  exact round_to_eval_pos binary32 _ _ 5 14315684 (by norm_num) (by norm_num)
    (by norm_num) (by norm_num [binary32]) (by norm_num [binary32, abs_lt])
    (by norm_num [binary32]) (by norm_num) (by norm_num [binary32])

theorem usage_lon_atof :
    example_atof "-6.40".toList = CFloat.num (-3602879701896397 / 562949953421312) := by
  have h1 : decimal_num "-6.40".toList = (-640) := by decide
  have h2 : decimal_den "-6.40".toList = 100 := by decide
  have h3 : decimal_num "-6.40".toList ≠ 0 := by rw [h1]; decide
  rw [example_atof, if_neg h3, h1, h2]
  exact round_to_eval_neg binary64 _ _ 2 7205759403792794 (by norm_num) (by norm_num)
    (by norm_num) (by norm_num [binary64]) (by norm_num [binary64, abs_lt])
    (by norm_num [binary64]) (by norm_num) (by norm_num [binary64])

theorem usage_lon_var :
    store_float (CFloat.num (-3602879701896397 / 562949953421312)) = CFloat.num (-13421773 / 2097152) := by
  show round_to binary32 (-3602879701896397 / 562949953421312) = _
  exact round_to_eval_neg binary32 _ _ 2 13421773 (by norm_num) (by norm_num)
    (by norm_num) (by norm_num [binary32]) (by norm_num [binary32, abs_lt])
    (by norm_num [binary32]) (by norm_num) (by norm_num [binary32])

theorem usage_lat_sub :
    double_const_sub 90 (CFloat.num (3578921 / 65536)) = CFloat.num (2319319 / 65536) := by
  show round_to binary64 (90 - (3578921 / 65536)) = _
  exact round_to_eval_pos binary64 _ _ 5 4980699626995712 (by norm_num) (by norm_num)
    (by norm_num) (by norm_num [binary64]) (by norm_num [binary64, abs_lt])
    (by norm_num [binary64]) (by norm_num) (by norm_num [binary64])

theorem usage_lat_mul :
    double_mul_const 380926 (CFloat.num (2319319 / 65536)) = CFloat.num (441744454697 / 32768) := by
  show round_to binary64 ((2319319 / 65536) * 380926) = _
  exact round_to_eval_pos binary64 _ _ 23 7237541145755648 (by norm_num) (by norm_num)
    (by norm_num) (by norm_num [binary64]) (by norm_num [binary64, abs_lt])
    (by norm_num [binary64]) (by norm_num) (by norm_num [binary64])

theorem usage_lat_store :
    store_float (CFloat.num (441744454697 / 32768)) = CFloat.num 13480971 := by
  show round_to binary32 (441744454697 / 32768) = _
  exact round_to_eval_pos binary32 _ _ 23 13480971 (by norm_num) (by norm_num)
    (by norm_num) (by norm_num [binary32]) (by norm_num [binary32, abs_lt])
    (by norm_num [binary32]) (by norm_num) (by norm_num [binary32])

theorem usage_lat_scale :
    scale_latitude (CFloat.num (3578921 / 65536)) = CFloat.num 13480971 := by
  rw [scale_latitude, usage_lat_sub, usage_lat_mul, usage_lat_store]

theorem usage_lon_add :
    double_const_add 180 (CFloat.num (-13421773 / 2097152)) = CFloat.num (364065587 / 2097152) := by
  show round_to binary64 (180 + (-13421773 / 2097152)) = _
  exact round_to_eval_pos binary64 _ _ 7 6108006991265792 (by norm_num) (by norm_num)
    (by norm_num) (by norm_num [binary64]) (by norm_num [binary64, abs_lt])
    (by norm_num [binary64]) (by norm_num) (by norm_num [binary64])

theorem usage_lon_mul :
    double_mul_const 190463 (CFloat.num (364065587 / 2097152)) = CFloat.num (69341023896781 / 2097152) := by
  show round_to binary64 ((364065587 / 2097152) * 190463) = _
  exact round_to_eval_pos binary64 _ _ 24 8875651058787968 (by norm_num) (by norm_num)
    (by norm_num) (by norm_num [binary64]) (by norm_num [binary64, abs_lt])
    (by norm_num [binary64]) (by norm_num) (by norm_num [binary64])

theorem usage_lon_store :
    store_float (CFloat.num (69341023896781 / 2097152)) = CFloat.num 33064376 := by
  show round_to binary32 (69341023896781 / 2097152) = _
  exact round_to_eval_pos binary32 _ _ 24 16532188 (by norm_num) (by norm_num)
    (by norm_num) (by norm_num [binary32]) (by norm_num [binary32, abs_lt])
    (by norm_num [binary32]) (by norm_num) (by norm_num [binary32])

theorem usage_lon_scale :
    scale_longitude (CFloat.num (-13421773 / 2097152)) = CFloat.num 33064376 := by
  rw [scale_longitude, usage_lon_add, usage_lon_mul, usage_lon_store]

theorem alt_zero_mul : double_mul_const double_3_2808399 (CFloat.num 0) = CFloat.num 0 := by
  simp [store_float, double_const_sub, double_const_add, double_mul_const, round_to]

theorem alt_zero_store : store_float (CFloat.num 0) = CFloat.num 0 := by
  simp [store_float, double_const_sub, double_const_add, double_mul_const, round_to]

theorem alt_zero_scale :
    scale_altitude (CFloat.num 0) = CFloat.num 0 := by
  rw [scale_altitude, alt_zero_mul, alt_zero_store]

theorem to_uint32_natCast (n : Nat) (h : n < 4294967296) :
    to_uint32 (CFloat.num (n : ℚ)) = some n := by
  rw [to_uint32_of_nonneg _ (by positivity) (by exact_mod_cast h)]
  simp

/-- C1 (as stated it fails): at longitude 1 the scaled value is 181 * 190463 =
34473803 exactly, an integer, yet the integer handed to `ax25_base91enc` is
34473804: the product is stored in the `float` variable first, where the
representable values around it are 4 apart. -/
theorem beacon_lon_int_not_rounded :
    (-180 : ℚ) ≤ 1 ∧ (1 : ℚ) ≤ 180 ∧
    beacon_lon_int (CFloat.num 1) = some 34473804 ∧
    round ((180 + 1 : ℚ) * 190463) = 34473803 := by
  refine ⟨by norm_num, by norm_num, ?_, ?_⟩
  · rw [beacon_lon_int, lon_one_scale]
    exact to_uint32_natCast 34473804 (by norm_num)
  · rw [round_eq, Int.floor_eq_iff]; norm_num

/-- C1 (amended): for every latitude in [-90, 90] and longitude in [-180, 180]
held by the `float` variables, the unsigned 32-bit integers handed to
`ax25_base91enc` are the values that the two assignments store back into those
variables, with their fraction discarded. The stored values are
(90 - latitude) * 380926 and (180 + longitude) * 190463 computed in `double` and
rounded to binary32; they lie in [0, 68566680] and within 4.000001 of the exact
products. -/
theorem beacon_position_ints (latitude longitude : CFloat) (x y : ℚ)
    (hx : latitude.value = some x) (hy : longitude.value = some y)
    (hlat : -90 ≤ x ∧ x ≤ 90) (hlon : -180 ≤ y ∧ y ≤ 180) :
    ∃ s t : ℚ,
      scale_latitude latitude = CFloat.num s ∧ scale_longitude longitude = CFloat.num t ∧
      beacon_lat_int latitude = some ⌊s⌋.toNat ∧
      beacon_lon_int longitude = some ⌊t⌋.toNat ∧
      (0 ≤ s ∧ s ≤ 68566680) ∧ (0 ≤ t ∧ t ≤ 68566680) ∧
      |s - (90 - x) * 380926| ≤ 4 + 1 / 1000000 ∧
      |t - (180 + y) * 190463| ≤ 4 + 1 / 1000000 := by
  obtain ⟨s, es, ps, qs, ds⟩ := scale_latitude_value latitude x hx hlat.1 hlat.2
  obtain ⟨t, et, pt, qt, dt⟩ := scale_longitude_value longitude y hy hlon.1 hlon.2
  refine ⟨s, t, es, et, ?_, ?_, ⟨ps, qs⟩, ⟨pt, qt⟩, ds, dt⟩
  · rw [beacon_lat_int, es]
    exact to_uint32_of_nonneg s ps (lt_of_le_of_lt qs (by norm_num))
  · rw [beacon_lon_int, et]
    exact to_uint32_of_nonneg t pt (lt_of_le_of_lt qt (by norm_num))

/-- At latitude 54.375 and longitude 1 the integers are 13570489 and 34473804;
the exact products are 13570488.75 and 34473803. -/
theorem beacon_position_ints_witness :
    beacon_lat_int (CFloat.num (435 / 8)) = some 13570489 ∧
    beacon_lon_int (CFloat.num 1) = some 34473804 ∧
    |(13570489 : ℚ) - (90 - 435 / 8) * 380926| ≤ 4 + 1 / 1000000 ∧
    |(34473804 : ℚ) - (180 + 1) * 190463| ≤ 4 + 1 / 1000000 := by
  obtain ⟨s, t, es, et, hs, ht, _, _, ds, dt⟩ :=
    beacon_position_ints (CFloat.num (435 / 8)) (CFloat.num 1) (435 / 8) 1 rfl rfl
      ⟨by norm_num, by norm_num⟩ ⟨by norm_num, by norm_num⟩
  rw [lat_54_375_scale] at es
  rw [lon_one_scale] at et
  injection es with es
  injection et with et
  subst es
  subst et
  refine ⟨?_, ?_, ds, dt⟩
  · rw [hs]; norm_num; rfl
  · rw [ht]; norm_num; rfl

/-- C8: for every latitude in [-90, 90] and longitude in [-180, 180], the scaled
values (90 - latitude) * 380926 and (180 + longitude) * 190463 lie in
[0, 68566680] in exact arithmetic, and so do the values that the program stores
in its `float` variables; 68566680 is below 91^4 = 68574961; the integers handed
to the width-4 base-91 encoding are therefore below 91^4, equal to their
remainders modulo 91^4, and the positional sum of the 4 characters written gives
them back. -/
theorem beacon_scaled_fits_width4 (latitude longitude : CFloat) (x y : ℚ)
    (hx : latitude.value = some x) (hy : longitude.value = some y)
    (hlat : -90 ≤ x ∧ x ≤ 90) (hlon : -180 ≤ y ∧ y ≤ 180) :
    (0 ≤ (90 - x) * 380926 ∧ (90 - x) * 380926 ≤ 68566680) ∧
    (0 ≤ (180 + y) * 190463 ∧ (180 + y) * 190463 ≤ 68566680) ∧
    (∃ s, scale_latitude latitude = CFloat.num s ∧ 0 ≤ s ∧ s ≤ 68566680) ∧
    (∃ t, scale_longitude longitude = CFloat.num t ∧ 0 ≤ t ∧ t ≤ 68566680) ∧
    68566680 < 91 ^ 4 ∧ 91 ^ 4 = 68574961 ∧
    ∃ a b, beacon_lat_int latitude = some a ∧ beacon_lon_int longitude = some b ∧
      a ≤ 68566680 ∧ b ≤ 68566680 ∧ a % 91 ^ 4 = a ∧ b % 91 ^ 4 = b ∧
      (∃ c0 c1 c2 c3, ax25_base91enc 4 a = [c0, c1, c2, c3] ∧
        (c0.toNat - 33) * 91 ^ 3 + (c1.toNat - 33) * 91 ^ 2 + (c2.toNat - 33) * 91 ^ 1
          + (c3.toNat - 33) * 91 ^ 0 = a) ∧
      (∃ c0 c1 c2 c3, ax25_base91enc 4 b = [c0, c1, c2, c3] ∧
        (c0.toNat - 33) * 91 ^ 3 + (c1.toNat - 33) * 91 ^ 2 + (c2.toNat - 33) * 91 ^ 1
          + (c3.toNat - 33) * 91 ^ 0 = b) := by
  obtain ⟨s, es, ps, qs, _⟩ := scale_latitude_value latitude x hx hlat.1 hlat.2
  obtain ⟨t, et, pt, qt, _⟩ := scale_longitude_value longitude y hy hlon.1 hlon.2
  have la : ⌊s⌋.toNat ≤ 68566680 := floor_toNat_le _ 68566680 ps (by exact_mod_cast qs)
  have lb : ⌊t⌋.toNat ≤ 68566680 := floor_toNat_le _ 68566680 pt (by exact_mod_cast qt)
  have p4 : 91 ^ 4 = 68574961 := by norm_num
  refine ⟨⟨by linarith [hlat.2], by linarith [hlat.1]⟩,
    ⟨by linarith [hlon.1], by linarith [hlon.2]⟩, ⟨s, es, ps, qs⟩, ⟨t, et, pt, qt⟩,
    by norm_num, p4, ⌊s⌋.toNat, ⌊t⌋.toNat, ?_, ?_, la, lb, ?_, ?_,
    base91enc_positional _ (by omega), base91enc_positional _ (by omega)⟩
  · rw [beacon_lat_int, es]
    exact to_uint32_of_nonneg s ps (lt_of_le_of_lt qs (by norm_num))
  · rw [beacon_lon_int, et]
    exact to_uint32_of_nonneg t pt (lt_of_le_of_lt qt (by norm_num))
  · exact Nat.mod_eq_of_lt (by omega)
  · exact Nat.mod_eq_of_lt (by omega)

/-- The south pole and the date line, the extreme positions, give exactly
68566680 in exact arithmetic and in the `float` variables. -/
theorem beacon_scaled_fits_width4_witness :
    (90 - (-90 : ℚ)) * 380926 ≤ 68566680 ∧ (180 + (180 : ℚ)) * 190463 ≤ 68566680 ∧
    scale_latitude (CFloat.num (-90)) = CFloat.num 68566680 ∧
    scale_longitude (CFloat.num 180) = CFloat.num 68566680 := by
  have h := beacon_scaled_fits_width4 (CFloat.num (-90)) (CFloat.num 180) (-90) 180 rfl rfl
    ⟨by norm_num, by norm_num⟩ ⟨by norm_num, by norm_num⟩
  exact ⟨h.1.2, h.2.1.2, lat_south_pole_scale, lon_date_line_scale⟩

/-! ## The option loops -/

theorem beacon_switch_s (env : Env) (v : BeaconOpts) (a : CString) :
    beacon_switch env v ⟨'s', a⟩ =
      if v.src_callsign.isSome then .error (_die "Only one sender callsign can be used\n")
      else .ok { v with src_callsign := some a } := rfl

theorem beacon_switch_d (env : Env) (v : BeaconOpts) (a : CString) :
    beacon_switch env v ⟨'d', a⟩ =
      if v.dst_callsign.isSome then
        .error (_die "Only one destination callsign can be used\n")
      else .ok { v with dst_callsign := some a } := rfl

theorem beacon_switch_p (env : Env) (v : BeaconOpts) (a : CString) :
    beacon_switch env v ⟨'p', a⟩ =
      if v.path1.isNone then .ok { v with path1 := some a }
      else if v.path2.isNone then .ok { v with path2 := some a }
      else .error (_die "Error: More than 2 paths specified\n") := rfl

theorem beacon_switch_r (env : Env) (v : BeaconOpts) (a : CString) :
    beacon_switch env v ⟨'r', a⟩ =
      .ok { v with ax25 := { v.ax25 with samplerate := to_uint16 (env.atoi a) } } := rfl

theorem beacon_switch_P (env : Env) (v : BeaconOpts) (a : CString) :
    beacon_switch env v ⟨'P', a⟩ =
      .ok { v with ax25 := { v.ax25 with preamble := to_uint8 (env.atoi a) } } := rfl

theorem beacon_switch_R (env : Env) (v : BeaconOpts) (a : CString) :
    beacon_switch env v ⟨'R', a⟩ =
      .ok { v with ax25 := { v.ax25 with rest := to_uint8 (env.atoi a) } } := rfl

theorem beacon_switch_o (env : Env) (v : BeaconOpts) (a : CString) :
    beacon_switch env v ⟨'o', a⟩ =
      if v.wavfile.isSome then .error (_die "Only one output WAV file can be used\n")
      else .ok { v with wavfile := some a } := rfl

theorem beacon_switch_t (env : Env) (v : BeaconOpts) (a : CString) :
    beacon_switch env v ⟨'t', a⟩ = .ok { v with sym_table := optarg0 a } := rfl

theorem beacon_switch_c (env : Env) (v : BeaconOpts) (a : CString) :
    beacon_switch env v ⟨'c', a⟩ = .ok { v with sym_code := optarg0 a } := rfl

theorem beacon_switch_other (env : Env) (v : BeaconOpts) (x : Char) (a : CString)
    (h : x ∉ ['s', 'd', 'p', 'r', 'P', 'R', 'o', 't', 'c', '?']) :
    beacon_switch env v ⟨x, a⟩ = .ok v := by
  simp only [List.mem_cons, List.mem_singleton, List.not_mem_nil, or_false, not_or] at h
  simp [beacon_switch, h]

/-- What one pass through the `switch` of ax25beacon.c does to the locals. -/
theorem beacon_switch_ok (env : Env) (v w : BeaconOpts) (e : GetoptEvent)
    (h : beacon_switch env v e = .ok w) :
    w.src_callsign.toList = v.src_callsign.toList ++ optargs 's' [e] ∧
    w.dst_callsign.toList = v.dst_callsign.toList ++ optargs 'd' [e] ∧
    ((v.path1 = none → v.path2 = none) →
      (w.path1 = none → w.path2 = none) ∧
      w.path1.toList ++ w.path2.toList =
        v.path1.toList ++ v.path2.toList ++ optargs 'p' [e]) ∧
    w.ax25.samplerate =
      (optargs 'r' [e]).foldl (fun _ a => to_uint16 (env.atoi a)) v.ax25.samplerate ∧
    w.ax25.preamble =
      (optargs 'P' [e]).foldl (fun _ a => to_uint8 (env.atoi a)) v.ax25.preamble ∧
    w.ax25.rest =
      (optargs 'R' [e]).foldl (fun _ a => to_uint8 (env.atoi a)) v.ax25.rest ∧
    w.ax25.bitrate = v.ax25.bitrate := by
  rcases e with ⟨x, a⟩
  by_cases hx : x ∈ ['s', 'd', 'p', 'r', 'P', 'R', 'o', 't', 'c', '?']
  · simp only [List.mem_cons, List.mem_singleton, List.not_mem_nil, or_false] at hx
    rcases hx with rfl | rfl | rfl | rfl | rfl | rfl | rfl | rfl | rfl | rfl
    · rw [beacon_switch_s] at h
      split_ifs at h with hc
      injection h with h; subst h
      simp_all [optargs]
    · rw [beacon_switch_d] at h
      split_ifs at h with hc
      injection h with h; subst h
      simp_all [optargs]
    · rw [beacon_switch_p] at h
      split_ifs at h with hc hd
      · injection h with h; subst h
        simp_all [optargs]
      · injection h with h; subst h
        simp_all [optargs]
    · rw [beacon_switch_r] at h
      injection h with h; subst h
      simp [optargs]
    · rw [beacon_switch_P] at h
      injection h with h; subst h
      simp [optargs]
    · rw [beacon_switch_R] at h
      injection h with h; subst h
      simp [optargs]
    · rw [beacon_switch_o] at h
      split_ifs at h with hc
      injection h with h; subst h
      simp [optargs]
    · rw [beacon_switch_t] at h
      injection h with h; subst h
      simp [optargs]
    · rw [beacon_switch_c] at h
      injection h with h; subst h
      simp [optargs]
    · exact absurd h (by simp [beacon_switch])
  · rw [beacon_switch_other env v x a hx] at h
    injection h with h; subst h
    simp only [List.mem_cons, List.mem_singleton, List.not_mem_nil, or_false, not_or] at hx
    simp [optargs, hx]

theorem optargs_cons (x : Char) (e : GetoptEvent) (es : List GetoptEvent) :
    optargs x (e :: es) = optargs x [e] ++ optargs x es := by
  by_cases h : e.x = x <;> simp [optargs, h]

/-- What the option loop of ax25beacon.c does to the locals when it runs to the
end of the options. -/
theorem beacon_getopt_ok (env : Env) (es : List GetoptEvent) :
    ∀ v w : BeaconOpts, beacon_getopt env v es = .ok w →
      w.src_callsign.toList = v.src_callsign.toList ++ optargs 's' es ∧
      w.dst_callsign.toList = v.dst_callsign.toList ++ optargs 'd' es ∧
      ((v.path1 = none → v.path2 = none) →
        (w.path1 = none → w.path2 = none) ∧
        w.path1.toList ++ w.path2.toList =
          v.path1.toList ++ v.path2.toList ++ optargs 'p' es) ∧
      w.ax25.samplerate =
        (optargs 'r' es).foldl (fun _ a => to_uint16 (env.atoi a)) v.ax25.samplerate ∧
      w.ax25.preamble =
        (optargs 'P' es).foldl (fun _ a => to_uint8 (env.atoi a)) v.ax25.preamble ∧
      w.ax25.rest =
        (optargs 'R' es).foldl (fun _ a => to_uint8 (env.atoi a)) v.ax25.rest ∧
      w.ax25.bitrate = v.ax25.bitrate := by
  induction es with
  | nil =>
    intro v w h
    simp only [beacon_getopt] at h
    injection h with h; subst h
    simp [optargs]
  | cons e es ih =>
    intro v w h
    simp only [beacon_getopt] at h
    cases hs : beacon_switch env v e with
    | error err => rw [hs] at h; exact absurd h (by simp)
    | ok u =>
      rw [hs] at h
      obtain ⟨s1, d1, p1, r1, pr1, re1, b1⟩ := beacon_switch_ok env v u e hs
      obtain ⟨s2, d2, p2, r2, pr2, re2, b2⟩ := ih u w h
      refine ⟨?_, ?_, ?_, ?_, ?_, ?_, ?_⟩
      · rw [s2, s1, optargs_cons 's' e es, List.append_assoc]
      · rw [d2, d1, optargs_cons 'd' e es, List.append_assoc]
      · intro hv
        obtain ⟨i1, q1⟩ := p1 hv
        obtain ⟨i2, q2⟩ := p2 i1
        exact ⟨i2, by rw [q2, q1, optargs_cons 'p' e es, List.append_assoc]⟩
      · rw [r2, r1, optargs_cons 'r' e es, List.foldl_append]
      · rw [pr2, pr1, optargs_cons 'P' e es, List.foldl_append]
      · rw [re2, re1, optargs_cons 'R' e es, List.foldl_append]
      · rw [b2, b1]

theorem frame_switch_s (env : Env) (v : FrameOpts) (a : CString) :
    frame_switch env v ⟨'s', a⟩ =
      if v.src_callsign.isSome then .error (_die "Only one sender callsign can be used\n")
      else .ok { v with src_callsign := some a } := rfl

theorem frame_switch_d (env : Env) (v : FrameOpts) (a : CString) :
    frame_switch env v ⟨'d', a⟩ =
      if v.dst_callsign.isSome then
        .error (_die "Only one destination callsign can be used\n")
      else .ok { v with dst_callsign := some a } := rfl

theorem frame_switch_p (env : Env) (v : FrameOpts) (a : CString) :
    frame_switch env v ⟨'p', a⟩ =
      if v.path1.isNone then .ok { v with path1 := some a }
      else if v.path2.isNone then .ok { v with path2 := some a }
      else .error (_die "Error: More than 2 paths specified\n") := rfl

theorem frame_switch_r (env : Env) (v : FrameOpts) (a : CString) :
    frame_switch env v ⟨'r', a⟩ =
      .ok { v with ax25 := { v.ax25 with samplerate := to_uint16 (env.atoi a) } } := rfl

theorem frame_switch_o (env : Env) (v : FrameOpts) (a : CString) :
    frame_switch env v ⟨'o', a⟩ =
      if v.wavfile.isSome then .error (_die "Only one output WAV file can be used\n")
      else .ok { v with wavfile := some a } := rfl

theorem frame_switch_other (env : Env) (v : FrameOpts) (x : Char) (a : CString)
    (h : x ∉ ['s', 'd', 'p', 'r', 'o', '?']) :
    frame_switch env v ⟨x, a⟩ = .ok v := by
  simp only [List.mem_cons, List.mem_singleton, List.not_mem_nil, or_false, not_or] at h
  simp [frame_switch, h]

/-- What one pass through the `switch` of ax25frame.c does to the locals. -/
theorem frame_switch_ok (env : Env) (v w : FrameOpts) (e : GetoptEvent)
    (h : frame_switch env v e = .ok w) :
    w.src_callsign.toList = v.src_callsign.toList ++ optargs 's' [e] ∧
    w.dst_callsign.toList = v.dst_callsign.toList ++ optargs 'd' [e] ∧
    ((v.path1 = none → v.path2 = none) →
      (w.path1 = none → w.path2 = none) ∧
      w.path1.toList ++ w.path2.toList =
        v.path1.toList ++ v.path2.toList ++ optargs 'p' [e]) ∧
    w.ax25.samplerate =
      (optargs 'r' [e]).foldl (fun _ a => to_uint16 (env.atoi a)) v.ax25.samplerate ∧
    w.ax25.preamble = v.ax25.preamble ∧
    w.ax25.rest = v.ax25.rest ∧
    w.ax25.bitrate = v.ax25.bitrate := by
  rcases e with ⟨x, a⟩
  by_cases hx : x ∈ ['s', 'd', 'p', 'r', 'o', '?']
  · simp only [List.mem_cons, List.mem_singleton, List.not_mem_nil, or_false] at hx
    rcases hx with rfl | rfl | rfl | rfl | rfl | rfl
    · rw [frame_switch_s] at h
      split_ifs at h with hc
      injection h with h; subst h
      simp_all [optargs]
    · rw [frame_switch_d] at h
      split_ifs at h with hc
      injection h with h; subst h
      simp_all [optargs]
    · rw [frame_switch_p] at h
      split_ifs at h with hc hd
      · injection h with h; subst h
        simp_all [optargs]
      · injection h with h; subst h
        simp_all [optargs]
    · rw [frame_switch_r] at h
      injection h with h; subst h
      simp [optargs]
    · rw [frame_switch_o] at h
      split_ifs at h with hc
      injection h with h; subst h
      simp [optargs]
    · exact absurd h (by simp [frame_switch])
  · rw [frame_switch_other env v x a hx] at h
    injection h with h; subst h
    simp only [List.mem_cons, List.mem_singleton, List.not_mem_nil, or_false, not_or] at hx
    simp [optargs, hx]

/-- What the option loop of ax25frame.c does to the locals when it runs to the
end of the options. -/
theorem frame_getopt_ok (env : Env) (es : List GetoptEvent) :
    ∀ v w : FrameOpts, frame_getopt env v es = .ok w →
      w.src_callsign.toList = v.src_callsign.toList ++ optargs 's' es ∧
      w.dst_callsign.toList = v.dst_callsign.toList ++ optargs 'd' es ∧
      ((v.path1 = none → v.path2 = none) →
        (w.path1 = none → w.path2 = none) ∧
        w.path1.toList ++ w.path2.toList =
          v.path1.toList ++ v.path2.toList ++ optargs 'p' es) ∧
      w.ax25.samplerate =
        (optargs 'r' es).foldl (fun _ a => to_uint16 (env.atoi a)) v.ax25.samplerate ∧
      w.ax25.preamble = v.ax25.preamble ∧
      w.ax25.rest = v.ax25.rest ∧
      w.ax25.bitrate = v.ax25.bitrate := by
  induction es with
  | nil =>
    intro v w h
    simp only [frame_getopt] at h
    injection h with h; subst h
    simp [optargs]
  | cons e es ih =>
    intro v w h
    simp only [frame_getopt] at h
    cases hs : frame_switch env v e with
    | error err => rw [hs] at h; exact absurd h (by simp)
    | ok u =>
      rw [hs] at h
      obtain ⟨s1, d1, p1, r1, pr1, re1, b1⟩ := frame_switch_ok env v u e hs
      obtain ⟨s2, d2, p2, r2, pr2, re2, b2⟩ := ih u w h
      refine ⟨?_, ?_, ?_, ?_, ?_, ?_, ?_⟩
      · rw [s2, s1, optargs_cons 's' e es, List.append_assoc]
      · rw [d2, d1, optargs_cons 'd' e es, List.append_assoc]
      · intro hv
        obtain ⟨i1, q1⟩ := p1 hv
        obtain ⟨i2, q2⟩ := p2 i1
        exact ⟨i2, by rw [q2, q1, optargs_cons 'p' e es, List.append_assoc]⟩
      · rw [r2, r1, optargs_cons 'r' e es, List.foldl_append]
      · rw [pr2, pr1]
      · rw [re2, re1]
      · rw [b2, b1]

/-! ## The runs of the two tools -/

theorem usage_mem_die (message : String) : Msg.usage ∈ _die message := by
  simp [_die, _usage]

theorem beacon_switch_q (env : Env) (v : BeaconOpts) (a : CString) :
    beacon_switch env v ⟨'?', a⟩ = .error _usage := rfl

theorem beacon_switch_error (env : Env) (v : BeaconOpts) (e : GetoptEvent)
    (err : List Msg) (h : beacon_switch env v e = .error err) : Msg.usage ∈ err := by
  rcases e with ⟨x, a⟩
  by_cases hx : x ∈ ['s', 'd', 'p', 'r', 'P', 'R', 'o', 't', 'c', '?']
  · simp only [List.mem_cons, List.mem_singleton, List.not_mem_nil, or_false] at hx
    rcases hx with rfl | rfl | rfl | rfl | rfl | rfl | rfl | rfl | rfl | rfl
    · rw [beacon_switch_s] at h
      split_ifs at h
      injection h with h; subst h; exact usage_mem_die _
    · rw [beacon_switch_d] at h
      split_ifs at h
      injection h with h; subst h; exact usage_mem_die _
    · rw [beacon_switch_p] at h
      split_ifs at h
      injection h with h; subst h; exact usage_mem_die _
    · rw [beacon_switch_r] at h; exact absurd h (by simp)
    · rw [beacon_switch_P] at h; exact absurd h (by simp)
    · rw [beacon_switch_R] at h; exact absurd h (by simp)
    · rw [beacon_switch_o] at h
      split_ifs at h
      injection h with h; subst h; exact usage_mem_die _
    · rw [beacon_switch_t] at h; exact absurd h (by simp)
    · rw [beacon_switch_c] at h; exact absurd h (by simp)
    · rw [beacon_switch_q] at h
      injection h with h; subst h; simp [_usage]
  · rw [beacon_switch_other env v x a hx] at h
    exact absurd h (by simp)

theorem beacon_getopt_error (env : Env) (es : List GetoptEvent) :
    ∀ (v : BeaconOpts) (err : List Msg),
      beacon_getopt env v es = .error err → Msg.usage ∈ err := by
  induction es with
  | nil => intro v err h; simp [beacon_getopt] at h
  | cons e es ih =>
    intro v err h
    simp only [beacon_getopt] at h
    cases hs : beacon_switch env v e with
    | error e1 =>
      rw [hs] at h
      injection h with h; subst h
      exact beacon_switch_error env v e _ hs
    | ok u => rw [hs] at h; exact ih u err h

theorem beacon_getopt_append (env : Env) (pre es : List GetoptEvent) :
    ∀ v w : BeaconOpts, beacon_getopt env v pre = .ok w →
      beacon_getopt env v (pre ++ es) = beacon_getopt env w es := by
  induction pre with
  | nil => intro v w h; simp only [beacon_getopt] at h; injection h with h; subst h; rfl
  | cons e pre ih =>
    intro v w h
    rw [List.cons_append]
    simp only [beacon_getopt] at h ⊢
    cases hs : beacon_switch env v e with
    | error e1 => rw [hs] at h; exact absurd h (by simp)
    | ok u => rw [hs] at h; exact ih u w h

/-- The locals of ax25beacon once the command line is accepted, in terms of the
locals left by the option loop and of the positional arguments. -/
theorem beacon_args_ok (env : Env) (opts : List GetoptEvent) (argv : List CString)
    (v : BeaconLocals) (h : beacon_args env opts argv = .ok v) :
    ∃ w, beacon_getopt env (beacon_init env) opts = .ok w ∧
      w.src_callsign = some v.src_callsign ∧
      v.dst_callsign = w.dst_callsign.getD "APRS".toList ∧
      v.path1 = w.path1 ∧ v.path2 = w.path2 ∧ v.ax25 = w.ax25 ∧ v.wavfile = w.wavfile ∧
      v.sym_table = w.sym_table ∧ v.sym_code = w.sym_code ∧
      v.altitude = store_float (env.atof (argv.getD 2 [])) ∧ v.comment = argv[3]? ∧
      v.latitude = store_float (env.atof (argv.getD 0 [])) ∧
      v.longitude = store_float (env.atof (argv.getD 1 [])) := by
  unfold beacon_args at h
  cases hg : beacon_getopt env (beacon_init env) opts with
  | error err => rw [hg] at h; exact absurd h (by simp)
  | ok w =>
    rw [hg] at h
    refine ⟨w, rfl, ?_⟩
    simp only at h
    cases hsrc : w.src_callsign with
    | none => rw [hsrc] at h; exact absurd h (by simp)
    | some src =>
      rw [hsrc] at h
      simp only at h
      split at h
      · injection h with h; subst h; simp
      · injection h with h; subst h; simp
      · exact absurd h (by simp)

theorem beacon_args_error (env : Env) (opts : List GetoptEvent) (argv : List CString)
    (err : List Msg) (h : beacon_args env opts argv = .error err) : Msg.usage ∈ err := by
  unfold beacon_args at h
  cases hg : beacon_getopt env (beacon_init env) opts with
  | error e1 =>
    rw [hg] at h
    injection h with h; subst h
    exact beacon_getopt_error env opts _ _ hg
  | ok w =>
    rw [hg] at h
    simp only at h
    cases hsrc : w.src_callsign with
    | none => rw [hsrc] at h; injection h with h; subst h; exact usage_mem_die _
    | some src =>
      rw [hsrc] at h
      simp only at h
      split at h
      · exact absurd h (by simp)
      · exact absurd h (by simp)
      · injection h with h; subst h; simp [_usage]

/-- A run of ax25beacon that calls `ax25_frame`: the command line was accepted,
the output opened with the stored sample rate, and the call is the one built
from the locals. -/
theorem beacon_main_frame (env : Env) (opts : List GetoptEvent) (argv : List CString)
    (c : FrameCall) (h : (beacon_main env opts argv).frame = some c) :
    ∃ v, beacon_args env opts argv = .ok v ∧
      env.ao_open { rate := v.ax25.samplerate, wavfile := v.wavfile } = true ∧
      v.ax25.bitrate ≠ 0 ∧ beacon_frame_call v = some c ∧
      (beacon_main env opts argv).opened
        = some { rate := v.ax25.samplerate, wavfile := v.wavfile } := by
  unfold beacon_main at h ⊢
  cases ha : beacon_args env opts argv with
  | error err => rw [ha] at h; simp [Run.exited] at h
  | ok v =>
    rw [ha] at h
    refine ⟨v, rfl, ?_⟩
    simp only at h ⊢
    by_cases h1 : env.ao_open { rate := v.ax25.samplerate, wavfile := v.wavfile } = false
    · simp [h1] at h
    · by_cases h2 : v.ax25.bitrate = 0
      · simp [h1, h2] at h
      · cases hc : beacon_frame_call v with
        | none => simp [h1, h2, hc] at h
        | some c1 =>
          simp [h1, h2, hc] at h ⊢
          exact h

/-- A run of ax25beacon that opens the audio output does so with the stored
sample rate. -/
theorem beacon_main_opened (env : Env) (opts : List GetoptEvent) (argv : List CString)
    (o : AoOpen) (h : (beacon_main env opts argv).opened = some o) :
    ∃ v, beacon_args env opts argv = .ok v ∧
      o = { rate := v.ax25.samplerate, wavfile := v.wavfile } := by
  unfold beacon_main at h
  cases ha : beacon_args env opts argv with
  | error err => rw [ha] at h; simp [Run.exited] at h
  | ok v =>
    rw [ha] at h
    refine ⟨v, rfl, ?_⟩
    simp only at h
    by_cases h1 : env.ao_open { rate := v.ax25.samplerate, wavfile := v.wavfile } = false
    · simp [h1] at h; exact h.symm
    · by_cases h2 : v.ax25.bitrate = 0
      · simp [h1, h2] at h; exact h.symm
      · cases hc : beacon_frame_call v with
        | none => simp [h1, h2, hc] at h; exact h.symm
        | some c1 => simp [h1, h2, hc] at h; exact h.symm

/-- The run of ax25beacon once the command line is accepted, the output opens and
the bit rate is not zero. -/
theorem beacon_main_run (env : Env) (opts : List GetoptEvent) (argv : List CString)
    (v : BeaconLocals) (ha : beacon_args env opts argv = .ok v)
    (h1 : env.ao_open { rate := v.ax25.samplerate, wavfile := v.wavfile } = true)
    (h2 : v.ax25.bitrate ≠ 0) :
    beacon_main env opts argv =
      { stderr := [], stdout := rate_check v.ax25,
        opened := some { rate := v.ax25.samplerate, wavfile := v.wavfile },
        frame := beacon_frame_call v,
        status := (beacon_frame_call v).map (fun _ => 0) } := by
  unfold beacon_main
  rw [ha]
  cases hc : beacon_frame_call v <;> simp [h1, h2, hc]

theorem frame_switch_q (env : Env) (v : FrameOpts) (a : CString) :
    frame_switch env v ⟨'?', a⟩ = .error _usage := rfl

theorem frame_switch_error (env : Env) (v : FrameOpts) (e : GetoptEvent)
    (err : List Msg) (h : frame_switch env v e = .error err) : Msg.usage ∈ err := by
  rcases e with ⟨x, a⟩
  by_cases hx : x ∈ ['s', 'd', 'p', 'r', 'o', '?']
  · simp only [List.mem_cons, List.mem_singleton, List.not_mem_nil, or_false] at hx
    rcases hx with rfl | rfl | rfl | rfl | rfl | rfl
    · rw [frame_switch_s] at h
      split_ifs at h
      injection h with h; subst h; exact usage_mem_die _
    · rw [frame_switch_d] at h
      split_ifs at h
      injection h with h; subst h; exact usage_mem_die _
    · rw [frame_switch_p] at h
      split_ifs at h
      injection h with h; subst h; exact usage_mem_die _
    · rw [frame_switch_r] at h; exact absurd h (by simp)
    · rw [frame_switch_o] at h
      split_ifs at h
      injection h with h; subst h; exact usage_mem_die _
    · rw [frame_switch_q] at h
      injection h with h; subst h; simp [_usage]
  · rw [frame_switch_other env v x a hx] at h
    exact absurd h (by simp)

theorem frame_getopt_error (env : Env) (es : List GetoptEvent) :
    ∀ (v : FrameOpts) (err : List Msg),
      frame_getopt env v es = .error err → Msg.usage ∈ err := by
  induction es with
  | nil => intro v err h; simp [frame_getopt] at h
  | cons e es ih =>
    intro v err h
    simp only [frame_getopt] at h
    cases hs : frame_switch env v e with
    | error e1 =>
      rw [hs] at h
      injection h with h; subst h
      exact frame_switch_error env v e _ hs
    | ok u => rw [hs] at h; exact ih u err h

theorem frame_getopt_append (env : Env) (pre es : List GetoptEvent) :
    ∀ v w : FrameOpts, frame_getopt env v pre = .ok w →
      frame_getopt env v (pre ++ es) = frame_getopt env w es := by
  induction pre with
  | nil => intro v w h; simp only [frame_getopt] at h; injection h with h; subst h; rfl
  | cons e pre ih =>
    intro v w h
    rw [List.cons_append]
    simp only [frame_getopt] at h ⊢
    cases hs : frame_switch env v e with
    | error e1 => rw [hs] at h; exact absurd h (by simp)
    | ok u => rw [hs] at h; exact ih u w h

/-- The locals of ax25frame once the command line is accepted. -/
theorem frame_args_ok (env : Env) (opts : List GetoptEvent) (argv : List CString)
    (v : FrameLocals) (h : frame_args env opts argv = .ok v) :
    ∃ w, frame_getopt env (frame_init env) opts = .ok w ∧
      w.src_callsign = some v.src_callsign ∧ w.dst_callsign = some v.dst_callsign ∧
      v.path1 = w.path1 ∧ v.path2 = w.path2 ∧ v.ax25 = w.ax25 ∧ v.wavfile = w.wavfile ∧
      argv = [v.data] := by
  unfold frame_args at h
  cases hg : frame_getopt env (frame_init env) opts with
  | error err => rw [hg] at h; exact absurd h (by simp)
  | ok w =>
    rw [hg] at h
    refine ⟨w, rfl, ?_⟩
    simp only at h
    cases hsrc : w.src_callsign with
    | none => rw [hsrc] at h; exact absurd h (by simp)
    | some src =>
      rw [hsrc] at h
      simp only at h
      cases hdst : w.dst_callsign with
      | none => rw [hdst] at h; exact absurd h (by simp)
      | some dst =>
        rw [hdst] at h
        simp only at h
        split at h
        · injection h with h; subst h; simp
        · exact absurd h (by simp)

theorem frame_args_error (env : Env) (opts : List GetoptEvent) (argv : List CString)
    (err : List Msg) (h : frame_args env opts argv = .error err) : Msg.usage ∈ err := by
  unfold frame_args at h
  cases hg : frame_getopt env (frame_init env) opts with
  | error e1 =>
    rw [hg] at h
    injection h with h; subst h
    exact frame_getopt_error env opts _ _ hg
  | ok w =>
    rw [hg] at h
    simp only at h
    cases hsrc : w.src_callsign with
    | none => rw [hsrc] at h; injection h with h; subst h; exact usage_mem_die _
    | some src =>
      rw [hsrc] at h
      simp only at h
      cases hdst : w.dst_callsign with
      | none => rw [hdst] at h; injection h with h; subst h; exact usage_mem_die _
      | some dst =>
        rw [hdst] at h
        simp only at h
        split at h
        · exact absurd h (by simp)
        · injection h with h; subst h; simp [_usage]

/-- The run of ax25frame once the command line is accepted, the output opens and
the bit rate is not zero. -/
theorem frame_main_run (env : Env) (opts : List GetoptEvent) (argv : List CString)
    (v : FrameLocals) (ha : frame_args env opts argv = .ok v)
    (h1 : env.ao_open { rate := v.ax25.samplerate, wavfile := v.wavfile } = true)
    (h2 : v.ax25.bitrate ≠ 0) :
    frame_main env opts argv =
      { stderr := [], stdout := rate_check v.ax25,
        opened := some { rate := v.ax25.samplerate, wavfile := v.wavfile },
        frame := some (frame_frame_call v), status := some 0 } := by
  unfold frame_main
  rw [ha]
  simp [h1, h2]

/-- A run of ax25frame that calls `ax25_frame`. -/
theorem frame_main_frame (env : Env) (opts : List GetoptEvent) (argv : List CString)
    (c : FrameCall) (h : (frame_main env opts argv).frame = some c) :
    ∃ v, frame_args env opts argv = .ok v ∧
      env.ao_open { rate := v.ax25.samplerate, wavfile := v.wavfile } = true ∧
      v.ax25.bitrate ≠ 0 ∧ frame_frame_call v = c ∧
      (frame_main env opts argv).opened
        = some { rate := v.ax25.samplerate, wavfile := v.wavfile } := by
  unfold frame_main at h ⊢
  cases ha : frame_args env opts argv with
  | error err => rw [ha] at h; simp [Run.exited] at h
  | ok v =>
    rw [ha] at h
    refine ⟨v, rfl, ?_⟩
    simp only at h ⊢
    by_cases h1 : env.ao_open { rate := v.ax25.samplerate, wavfile := v.wavfile } = false
    · simp [h1] at h
    · by_cases h2 : v.ax25.bitrate = 0
      · simp [h1, h2] at h
      · simp [h1, h2] at h ⊢
        exact h

/-- A run of ax25frame that opens the audio output does so with the stored sample
rate. -/
theorem frame_main_opened (env : Env) (opts : List GetoptEvent) (argv : List CString)
    (o : AoOpen) (h : (frame_main env opts argv).opened = some o) :
    ∃ v, frame_args env opts argv = .ok v ∧
      o = { rate := v.ax25.samplerate, wavfile := v.wavfile } := by
  unfold frame_main at h
  cases ha : frame_args env opts argv with
  | error err => rw [ha] at h; simp [Run.exited] at h
  | ok v =>
    rw [ha] at h
    refine ⟨v, rfl, ?_⟩
    simp only at h
    by_cases h1 : env.ao_open { rate := v.ax25.samplerate, wavfile := v.wavfile } = false
    · simp [h1] at h; exact h.symm
    · by_cases h2 : v.ax25.bitrate = 0
      · simp [h1, h2] at h; exact h.symm
      · simp [h1, h2] at h; exact h.symm

/-! ## The command line of the usage text -/

theorem beacon_lat_int_usage :
    beacon_lat_int (CFloat.num (3578921 / 65536)) = some 13480971 := by
  rw [beacon_lat_int, usage_lat_scale]
  exact to_uint32_natCast 13480971 (by norm_num)

theorem beacon_lon_int_usage :
    beacon_lon_int (CFloat.num (-13421773 / 2097152)) = some 33064376 := by
  rw [beacon_lon_int, usage_lon_scale]
  exact to_uint32_natCast 33064376 (by norm_num)

theorem usage_args :
    beacon_args example_env usage_opts usage_argv = .ok usage_locals := by
  have hlat : store_float (example_atof "54.61".toList) = CFloat.num (3578921 / 65536) := by
    rw [usage_lat_atof, usage_lat_var]
  have hlon : store_float (example_atof "-6.40".toList)
      = CFloat.num (-13421773 / 2097152) := by
    rw [usage_lon_atof, usage_lon_var]
  have halt : store_float (example_atof "0".toList) = CFloat.num 0 := by
    rw [zero_arg_atof, zero_arg_var]
  simp [beacon_args, usage_opts, usage_argv, usage_locals, beacon_getopt, beacon_switch_s,
    beacon_init, example_env]
  exact ⟨hlat, hlon, halt⟩

theorem beacon_frame_call_eq (v : BeaconLocals) (lat lon : Nat)
    (h1 : beacon_lat_int v.latitude = some lat) (h2 : beacon_lon_int v.longitude = some lon) :
    beacon_frame_call v =
      some { ax25 := v.ax25, scallsign := v.src_callsign, dcallsign := v.dst_callsign,
             path1 := v.path1, path2 := v.path2, data := beacon_data,
             args := [PrintfArg.char v.sym_table, PrintfArg.str (ax25_base91enc 4 lat),
                      PrintfArg.str (ax25_base91enc 4 lon), PrintfArg.char v.sym_code,
                      PrintfArg.double (scale_altitude v.altitude),
                      PrintfArg.str (v.comment.getD [])] } := by
  unfold beacon_frame_call
  rw [h1, h2]

theorem usage_frame_call : beacon_frame_call usage_locals = some usage_call := by
  rw [beacon_frame_call_eq usage_locals 13480971 33064376 beacon_lat_int_usage
    beacon_lon_int_usage]
  have h0 : scale_altitude usage_locals.altitude = CFloat.num 0 := alt_zero_scale
  rw [h0]
  rfl

theorem usage_frame :
    (beacon_main example_env usage_opts usage_argv).frame = some usage_call := by
  rw [beacon_main_run example_env usage_opts usage_argv usage_locals usage_args rfl
    (by decide)]
  exact usage_frame_call

/-! ## The digipeater path -/

theorem paths_of_list (p1 p2 : Option CString) (l : List CString)
    (inv : p1 = none → p2 = none) (h : p1.toList ++ p2.toList = l) :
    l.length ≤ 2 ∧ p1 = l[0]? ∧ p2 = l[1]? := by
  subst h
  cases p1 <;> cases p2 <;> simp_all

theorem beacon_paths (env : Env) (opts : List GetoptEvent) (w : BeaconOpts)
    (h : beacon_getopt env (beacon_init env) opts = .ok w) :
    (optargs 'p' opts).length ≤ 2 ∧ w.path1 = (optargs 'p' opts)[0]? ∧
      w.path2 = (optargs 'p' opts)[1]? ∧ (w.path1 = none → w.path2 = none) := by
  obtain ⟨_, _, hp, _⟩ := beacon_getopt_ok env opts _ w h
  obtain ⟨inv, hl⟩ := hp (fun _ => rfl)
  have := paths_of_list w.path1 w.path2 (optargs 'p' opts) inv (by simpa [beacon_init] using hl)
  exact ⟨this.1, this.2.1, this.2.2, inv⟩

theorem frame_paths (env : Env) (opts : List GetoptEvent) (w : FrameOpts)
    (h : frame_getopt env (frame_init env) opts = .ok w) :
    (optargs 'p' opts).length ≤ 2 ∧ w.path1 = (optargs 'p' opts)[0]? ∧
      w.path2 = (optargs 'p' opts)[1]? ∧ (w.path1 = none → w.path2 = none) := by
  obtain ⟨_, _, hp, _⟩ := frame_getopt_ok env opts _ w h
  obtain ⟨inv, hl⟩ := hp (fun _ => rfl)
  have := paths_of_list w.path1 w.path2 (optargs 'p' opts) inv (by simpa [frame_init] using hl)
  exact ⟨this.1, this.2.1, this.2.2, inv⟩

theorem beacon_frame_call_fields (v : BeaconLocals) (c : FrameCall)
    (h : beacon_frame_call v = some c) :
    c.ax25 = v.ax25 ∧ c.scallsign = v.src_callsign ∧ c.dcallsign = v.dst_callsign ∧
      c.path1 = v.path1 ∧ c.path2 = v.path2 := by
  unfold beacon_frame_call at h
  split at h
  · injection h with h; subst h; simp
  · exact absurd h (by simp)

/-- C4: in ax25beacon and in ax25frame, for every sequence of options, a run that
calls `ax25_frame` was given at most 2 `-p` options, `path1` is the first `-p`
value and `path2` the second, and `path2` is not set while `path1` is unset. A
command line with 3 or more `-p` options ends with the usage text and exit
status -1, with no audio output opened and no `ax25_frame` call; when the loop
reaches the third `-p` the message is the one about more than 2 paths. -/
theorem path_at_most_two (env : Env) (opts : List GetoptEvent) (argv : List CString) :
    (∀ c, (beacon_main env opts argv).frame = some c →
      (optargs 'p' opts).length ≤ 2 ∧ c.path1 = (optargs 'p' opts)[0]? ∧
      c.path2 = (optargs 'p' opts)[1]? ∧ (c.path1 = none → c.path2 = none)) ∧
    (3 ≤ (optargs 'p' opts).length →
      (beacon_main env opts argv).opened = none ∧
      (beacon_main env opts argv).frame = none ∧
      (beacon_main env opts argv).status = some (-1) ∧
      Msg.usage ∈ (beacon_main env opts argv).stderr) ∧
    (∀ pre a post w, opts = pre ++ ⟨'p', a⟩ :: post →
      beacon_getopt env (beacon_init env) pre = .ok w → (optargs 'p' pre).length = 2 →
      beacon_main env opts argv = Run.exited (_die "Error: More than 2 paths specified\n")) ∧
    (∀ c, (frame_main env opts argv).frame = some c →
      (optargs 'p' opts).length ≤ 2 ∧ c.path1 = (optargs 'p' opts)[0]? ∧
      c.path2 = (optargs 'p' opts)[1]? ∧ (c.path1 = none → c.path2 = none)) ∧
    (3 ≤ (optargs 'p' opts).length →
      (frame_main env opts argv).opened = none ∧
      (frame_main env opts argv).frame = none ∧
      (frame_main env opts argv).status = some (-1) ∧
      Msg.usage ∈ (frame_main env opts argv).stderr) ∧
    (∀ pre a post w, opts = pre ++ ⟨'p', a⟩ :: post →
      frame_getopt env (frame_init env) pre = .ok w → (optargs 'p' pre).length = 2 →
      frame_main env opts argv = Run.exited (_die "Error: More than 2 paths specified\n")) := by
  refine ⟨?_, ?_, ?_, ?_, ?_, ?_⟩
  · intro c hc
    obtain ⟨v, ha, _, _, hcall, _⟩ := beacon_main_frame env opts argv c hc
    obtain ⟨w, hg, _, _, hp1, hp2, _⟩ := beacon_args_ok env opts argv v ha
    obtain ⟨_, _, _, f1, f2⟩ := beacon_frame_call_fields v c hcall
    have := beacon_paths env opts w hg
    rw [f1, f2, hp1, hp2]
    exact this
  · intro h3
    cases ha : beacon_args env opts argv with
    | ok v =>
      obtain ⟨w, hg, _⟩ := beacon_args_ok env opts argv v ha
      have := (beacon_paths env opts w hg).1
      omega
    | error err =>
      have hu := beacon_args_error env opts argv err ha
      simp [beacon_main, ha, Run.exited, hu]
  · intro pre a post w ho hg h2
    subst ho
    obtain ⟨_, hw1, hw2, _⟩ := beacon_paths env pre w hg
    have e1 : w.path1.isNone = false := by
      rw [hw1]; cases hq : optargs 'p' pre with
      | nil => rw [hq] at h2; simp at h2
      | cons q qs => simp
    have e2 : w.path2.isNone = false := by
      rw [hw2]; cases hq : optargs 'p' pre with
      | nil => rw [hq] at h2; simp at h2
      | cons q qs =>
        cases qs with
        | nil => rw [hq] at h2; simp at h2
        | cons q2 qs => simp
    have hloop : beacon_getopt env (beacon_init env) (pre ++ ⟨'p', a⟩ :: post) =
        .error (_die "Error: More than 2 paths specified\n") := by
      rw [beacon_getopt_append env pre _ _ w hg]
      simp only [beacon_getopt]
      rw [beacon_switch_p]
      simp [e1, e2]
    simp [beacon_main, beacon_args, hloop]
  · intro c hc
    obtain ⟨v, ha, _, _, hcall, _⟩ := frame_main_frame env opts argv c hc
    obtain ⟨w, hg, _, _, hp1, hp2, _⟩ := frame_args_ok env opts argv v ha
    have := frame_paths env opts w hg
    subst hcall
    simp only [frame_frame_call]
    rw [hp1, hp2]
    exact this
  · intro h3
    cases ha : frame_args env opts argv with
    | ok v =>
      obtain ⟨w, hg, _⟩ := frame_args_ok env opts argv v ha
      have := (frame_paths env opts w hg).1
      omega
    | error err =>
      have hu := frame_args_error env opts argv err ha
      simp [frame_main, ha, Run.exited, hu]
  · intro pre a post w ho hg h2
    subst ho
    obtain ⟨_, hw1, hw2, _⟩ := frame_paths env pre w hg
    have e1 : w.path1.isNone = false := by
      rw [hw1]; cases hq : optargs 'p' pre with
      | nil => rw [hq] at h2; simp at h2
      | cons q qs => simp
    have e2 : w.path2.isNone = false := by
      rw [hw2]; cases hq : optargs 'p' pre with
      | nil => rw [hq] at h2; simp at h2
      | cons q qs =>
        cases qs with
        | nil => rw [hq] at h2; simp at h2
        | cons q2 qs => simp
    have hloop : frame_getopt env (frame_init env) (pre ++ ⟨'p', a⟩ :: post) =
        .error (_die "Error: More than 2 paths specified\n") := by
      rw [frame_getopt_append env pre _ _ w hg]
      simp only [frame_getopt]
      rw [frame_switch_p]
      simp [e1, e2]
    simp [frame_main, frame_args, hloop]

/-- Three `-p` options on an ax25frame command line: nothing is opened, the exit
status is -1; two `-p` options arrive as `path1` and `path2` in order. -/
theorem path_at_most_two_witness :
    (frame_main example_env
        [⟨'s', "N0CALL".toList⟩, ⟨'d', "APRS".toList⟩, ⟨'p', "WIDE1-1".toList⟩,
         ⟨'p', "WIDE2-1".toList⟩, ⟨'p', "WIDE3-3".toList⟩] ["TEST".toList]).opened = none ∧
    (frame_main example_env
        [⟨'s', "N0CALL".toList⟩, ⟨'d', "APRS".toList⟩, ⟨'p', "WIDE1-1".toList⟩,
         ⟨'p', "WIDE2-1".toList⟩, ⟨'p', "WIDE3-3".toList⟩] ["TEST".toList]).status
      = some (-1) :=
  have h := (path_at_most_two example_env
    [⟨'s', "N0CALL".toList⟩, ⟨'d', "APRS".toList⟩, ⟨'p', "WIDE1-1".toList⟩,
     ⟨'p', "WIDE2-1".toList⟩, ⟨'p', "WIDE3-3".toList⟩] ["TEST".toList]).2.2.2.2.1
    (by decide)
  ⟨h.1, h.2.2.1⟩

/-! ## The callsigns of ax25beacon -/

theorem option_of_toList (o : Option CString) (l : List CString) (h : o.toList = l) :
    (∀ a, l = [a] → o = some a) ∧ (l = [] → o = none) := by
  subst h
  cases o <;> simp

/-- C7: in ax25beacon, a run that calls `ax25_frame` was given exactly one `-s`
option and hands its value over as the sender callsign; the destination callsign
handed over is the `-d` value when exactly one `-d` was given and the string
APRS when none was given, and no other number of `-d` options reaches the call;
a command line without `-s` makes no `ax25_frame` call. -/
theorem beacon_callsigns (env : Env) (opts : List GetoptEvent) (argv : List CString) :
    (∀ c, (beacon_main env opts argv).frame = some c →
      optargs 's' opts = [c.scallsign] ∧
      (∀ d, optargs 'd' opts = [d] → c.dcallsign = d) ∧
      (optargs 'd' opts = [] → c.dcallsign = "APRS".toList) ∧
      (optargs 'd' opts).length ≤ 1) ∧
    (optargs 's' opts = [] → (beacon_main env opts argv).frame = none) := by
  have key : ∀ c, (beacon_main env opts argv).frame = some c →
      optargs 's' opts = [c.scallsign] ∧
      (∀ d, optargs 'd' opts = [d] → c.dcallsign = d) ∧
      (optargs 'd' opts = [] → c.dcallsign = "APRS".toList) ∧
      (optargs 'd' opts).length ≤ 1 := by
    intro c hc
    obtain ⟨v, ha, _, _, hcall, _⟩ := beacon_main_frame env opts argv c hc
    obtain ⟨w, hg, hsrc, hdst, _⟩ := beacon_args_ok env opts argv v ha
    obtain ⟨_, f1, f2, _⟩ := beacon_frame_call_fields v c hcall
    obtain ⟨hs, hd, _⟩ := beacon_getopt_ok env opts _ w hg
    simp only [beacon_init, Option.toList, List.nil_append] at hs hd
    obtain ⟨d1, d0⟩ := option_of_toList w.dst_callsign _ hd
    rw [f1, f2, hdst]
    refine ⟨?_, ?_, ?_, ?_⟩
    · rw [← hs, hsrc]
    · intro d hd1; rw [d1 d hd1]; rfl
    · intro hd0; rw [d0 hd0]; rfl
    · rw [← hd]; cases w.dst_callsign <;> simp
  refine ⟨key, ?_⟩
  intro hs
  cases hf : (beacon_main env opts argv).frame with
  | none => rfl
  | some c =>
    have := (key c hf).1
    rw [hs] at this
    exact absurd this (by simp)

/-- The command line of the usage text, `ax25beacon -s MYCALL -- 54.61 -6.40 0`,
with no `-d`: the call carries MYCALL and APRS. -/
theorem beacon_callsigns_witness :
    (beacon_main example_env usage_opts usage_argv).frame = some usage_call ∧
    optargs 's' usage_opts = [usage_call.scallsign] ∧
    usage_call.dcallsign = "APRS".toList :=
  have h := (beacon_callsigns example_env usage_opts usage_argv).1 usage_call usage_frame
  ⟨usage_frame, h.1, h.2.2.1 (by decide)⟩

/-! ## The stored rates -/

theorem to_uint16_natCast (n : Nat) : to_uint16 (n : Int) = n % 65536 := by
  unfold to_uint16
  omega

theorem to_uint8_natCast (n : Nat) : to_uint8 (n : Int) = n % 256 := by
  unfold to_uint8
  omega

theorem optargs_last (x : Char) (pre post : List GetoptEvent) (a : CString)
    (h : ∀ e ∈ post, e.x ≠ x) :
    optargs x (pre ++ ⟨x, a⟩ :: post) = optargs x pre ++ [a] := by
  have hp : optargs x post = [] := by
    simp only [optargs, List.map_eq_nil_iff, List.filter_eq_nil_iff]
    intro e he
    simpa using h e he
  have hc := optargs_cons x ⟨x, a⟩ post
  rw [hp] at hc
  simp only [optargs, List.filter_append, List.map_append] at hc ⊢
  rw [hc]
  simp

/-- C9: let `n` be the non-negative integer that `atoi` returns for the argument
of an option. The `-r` case of either tool stores n mod 65536 as the sample rate
and the `-P` and `-R` cases of ax25beacon store n mod 256. If that option is the
last `-r`, the audio output is opened with
rate n mod 65536 and `ax25_frame` receives that sample rate, in ax25beacon and in
ax25frame; if it is the last `-P` or `-R` of ax25beacon, the preamble or rest
count received is n mod 256. In every run the rate of the opened output is the
sample rate left by the option loop, and it is the sample rate handed to
`ax25_frame`. A requested rate of 65536 or more is not
the rate used. -/
theorem stored_rates (env : Env) (n : Nat) (a : CString) (hn : env.atoi a = (n : Int))
    (pre post : List GetoptEvent) (argv : List CString) :
    (∀ v : BeaconOpts, ∃ w, beacon_switch env v ⟨'r', a⟩ = .ok w ∧
      w.ax25.samplerate = n % 65536) ∧
    (∀ v : BeaconOpts, ∃ w, beacon_switch env v ⟨'P', a⟩ = .ok w ∧
      w.ax25.preamble = n % 256) ∧
    (∀ v : BeaconOpts, ∃ w, beacon_switch env v ⟨'R', a⟩ = .ok w ∧
      w.ax25.rest = n % 256) ∧
    (∀ v : FrameOpts, ∃ w, frame_switch env v ⟨'r', a⟩ = .ok w ∧
      w.ax25.samplerate = n % 65536) ∧
    ((∀ e ∈ post, e.x ≠ 'r') →
      (∀ o, (beacon_main env (pre ++ ⟨'r', a⟩ :: post) argv).opened = some o →
        o.rate = n % 65536 ∧ (65536 ≤ n → o.rate ≠ n)) ∧
      (∀ c, (beacon_main env (pre ++ ⟨'r', a⟩ :: post) argv).frame = some c →
        c.ax25.samplerate = n % 65536) ∧
      (∀ o, (frame_main env (pre ++ ⟨'r', a⟩ :: post) argv).opened = some o →
        o.rate = n % 65536 ∧ (65536 ≤ n → o.rate ≠ n)) ∧
      (∀ c, (frame_main env (pre ++ ⟨'r', a⟩ :: post) argv).frame = some c →
        c.ax25.samplerate = n % 65536)) ∧
    ((∀ e ∈ post, e.x ≠ 'P') →
      ∀ c, (beacon_main env (pre ++ ⟨'P', a⟩ :: post) argv).frame = some c →
        c.ax25.preamble = n % 256) ∧
    ((∀ e ∈ post, e.x ≠ 'R') →
      ∀ c, (beacon_main env (pre ++ ⟨'R', a⟩ :: post) argv).frame = some c →
        c.ax25.rest = n % 256) ∧
    (∀ opts o, (beacon_main env opts argv).opened = some o →
      (∃ w, beacon_getopt env (beacon_init env) opts = .ok w ∧
        o.rate = w.ax25.samplerate) ∧
      ∀ c, (beacon_main env opts argv).frame = some c → c.ax25.samplerate = o.rate) ∧
    (∀ opts o, (frame_main env opts argv).opened = some o →
      (∃ w, frame_getopt env (frame_init env) opts = .ok w ∧
        o.rate = w.ax25.samplerate) ∧
      ∀ c, (frame_main env opts argv).frame = some c → c.ax25.samplerate = o.rate) := by
  have hmod : 65536 ≤ n → n % 65536 ≠ n := by intro h; omega
  have brate : ∀ opts v, beacon_args env opts argv = .ok v →
      (∀ e ∈ post, e.x ≠ 'r') → opts = pre ++ ⟨'r', a⟩ :: post →
      v.ax25.samplerate = n % 65536 := by
    intro opts v ha hpost ho
    obtain ⟨w, hg, _, _, _, _, hax, _⟩ := beacon_args_ok env opts argv v ha
    obtain ⟨_, _, _, hr, _⟩ := beacon_getopt_ok env opts _ w hg
    rw [hax, hr, ho, optargs_last 'r' pre post a hpost, List.foldl_append]
    simp [hn, to_uint16_natCast]
  have frate : ∀ opts v, frame_args env opts argv = .ok v →
      (∀ e ∈ post, e.x ≠ 'r') → opts = pre ++ ⟨'r', a⟩ :: post →
      v.ax25.samplerate = n % 65536 := by
    intro opts v ha hpost ho
    obtain ⟨w, hg, _, _, _, _, hax, _⟩ := frame_args_ok env opts argv v ha
    obtain ⟨_, _, _, hr, _⟩ := frame_getopt_ok env opts _ w hg
    rw [hax, hr, ho, optargs_last 'r' pre post a hpost, List.foldl_append]
    simp [hn, to_uint16_natCast]
  refine ⟨?_, ?_, ?_, ?_, ?_, ?_, ?_, ?_, ?_⟩
  · intro v
    exact ⟨_, beacon_switch_r env v a, by simp [hn, to_uint16_natCast]⟩
  · intro v
    exact ⟨_, beacon_switch_P env v a, by simp [hn, to_uint8_natCast]⟩
  · intro v
    exact ⟨_, beacon_switch_R env v a, by simp [hn, to_uint8_natCast]⟩
  · intro v
    exact ⟨_, frame_switch_r env v a, by simp [hn, to_uint16_natCast]⟩
  · intro hpost
    refine ⟨?_, ?_, ?_, ?_⟩
    · intro o ho
      obtain ⟨v, ha, rfl⟩ := beacon_main_opened env _ argv o ho
      have := brate _ v ha hpost rfl
      exact ⟨this, fun h => by simp only; rw [this]; exact hmod h⟩
    · intro c hc
      obtain ⟨v, ha, _, _, hcall, _⟩ := beacon_main_frame env _ argv c hc
      rw [(beacon_frame_call_fields v c hcall).1]
      exact brate _ v ha hpost rfl
    · intro o ho
      obtain ⟨v, ha, rfl⟩ := frame_main_opened env _ argv o ho
      have := frate _ v ha hpost rfl
      exact ⟨this, fun h => by simp only; rw [this]; exact hmod h⟩
    · intro c hc
      obtain ⟨v, ha, _, _, rfl, _⟩ := frame_main_frame env _ argv c hc
      exact frate _ v ha hpost rfl
  · intro hpost c hc
    obtain ⟨v, ha, _, _, hcall, _⟩ := beacon_main_frame env _ argv c hc
    obtain ⟨w, hg, _, _, _, _, hax, _⟩ := beacon_args_ok env _ argv v ha
    obtain ⟨_, _, _, _, hp, _⟩ := beacon_getopt_ok env _ _ w hg
    rw [(beacon_frame_call_fields v c hcall).1, hax, hp,
      optargs_last 'P' pre post a hpost, List.foldl_append]
    simp [hn, to_uint8_natCast]
  · intro hpost c hc
    obtain ⟨v, ha, _, _, hcall, _⟩ := beacon_main_frame env _ argv c hc
    obtain ⟨w, hg, _, _, _, _, hax, _⟩ := beacon_args_ok env _ argv v ha
    obtain ⟨_, _, _, _, _, hp, _⟩ := beacon_getopt_ok env _ _ w hg
    rw [(beacon_frame_call_fields v c hcall).1, hax, hp,
      optargs_last 'R' pre post a hpost, List.foldl_append]
    simp [hn, to_uint8_natCast]
  · intro opts o ho
    constructor
    · obtain ⟨v, ha, rfl⟩ := beacon_main_opened env opts argv o ho
      obtain ⟨w, hg, _, _, _, _, hax, _⟩ := beacon_args_ok env opts argv v ha
      exact ⟨w, hg, by rw [hax]⟩
    · intro c hc
      obtain ⟨v, ha, _, _, hcall, hopen⟩ := beacon_main_frame env opts argv c hc
      rw [hopen] at ho
      injection ho with ho; subst ho
      rw [(beacon_frame_call_fields v c hcall).1]
  · intro opts o ho
    constructor
    · obtain ⟨v, ha, rfl⟩ := frame_main_opened env opts argv o ho
      obtain ⟨w, hg, _, _, _, _, hax, _⟩ := frame_args_ok env opts argv v ha
      exact ⟨w, hg, by rw [hax]⟩
    · intro c hc
      obtain ⟨v, ha, _, _, hcall, hopen⟩ := frame_main_frame env opts argv c hc
      rw [hopen] at ho
      injection ho with ho; subst ho
      subst hcall
      rfl

/-- With `-r 70000` the output of ax25frame is opened at 4464 Hz, which is
70000 mod 65536. -/
theorem stored_rates_witness :
    example_env.atoi "70000".toList = 70000 ∧
    (frame_main example_env
        ([⟨'s', "N0CALL".toList⟩, ⟨'d', "APRS".toList⟩] ++ ⟨'r', "70000".toList⟩ :: [])
        ["TEST".toList]).opened = some { rate := 4464, wavfile := none } ∧
    (4464 : Nat) = 70000 % 65536 :=
  ⟨by decide, rfl,
    ((stored_rates example_env 70000 "70000".toList (by decide)
      [⟨'s', "N0CALL".toList⟩, ⟨'d', "APRS".toList⟩] [] ["TEST".toList]).2.2.2.2.1
        (by simp)).2.2.1 { rate := 4464, wavfile := none } rfl |>.1⟩

/-! ## The sample-rate warning -/

theorem rate_check_mem (ax25 : ax25_t) :
    (Msg.rate_warning ax25.samplerate ax25.bitrate ∈ rate_check ax25 ↔
      ax25.samplerate % ax25.bitrate ≠ 0) ∧
    (rate_check ax25 = [] ↔ ax25.samplerate % ax25.bitrate = 0) := by
  unfold rate_check
  by_cases h : ax25.samplerate % ax25.bitrate = 0 <;> simp [h]

/-- C5: in a run of either tool that has accepted its command line and opened the
audio output, with a non-zero bit rate, the sample-rate warning is printed if and
only if the sample rate modulo the bit rate is not zero, and nothing else is
printed at that point. Printed or not, the run goes on to the `ax25_frame` call
built from the locals alone, with the configuration unchanged, and nothing is
written to `stderr`; ax25frame then ends with status 0, and so does ax25beacon
whenever the position is within [-90, 90] and [-180, 180]. -/
theorem rate_warning_nonfatal (env : Env) (opts : List GetoptEvent) (argv : List CString) :
    (∀ v, beacon_args env opts argv = .ok v →
      env.ao_open { rate := v.ax25.samplerate, wavfile := v.wavfile } = true →
      v.ax25.bitrate ≠ 0 →
      (Msg.rate_warning v.ax25.samplerate v.ax25.bitrate ∈
          (beacon_main env opts argv).stdout ↔ v.ax25.samplerate % v.ax25.bitrate ≠ 0) ∧
      ((beacon_main env opts argv).stdout = [] ↔ v.ax25.samplerate % v.ax25.bitrate = 0) ∧
      (beacon_main env opts argv).stderr = [] ∧
      (beacon_main env opts argv).frame = beacon_frame_call v ∧
      (∀ c, beacon_frame_call v = some c → c.ax25 = v.ax25) ∧
      (∀ x y, v.latitude.value = some x → v.longitude.value = some y →
        -90 ≤ x ∧ x ≤ 90 → -180 ≤ y ∧ y ≤ 180 →
        (∃ c, (beacon_main env opts argv).frame = some c) ∧
        (beacon_main env opts argv).status = some 0)) ∧
    (∀ v, frame_args env opts argv = .ok v →
      env.ao_open { rate := v.ax25.samplerate, wavfile := v.wavfile } = true →
      v.ax25.bitrate ≠ 0 →
      (Msg.rate_warning v.ax25.samplerate v.ax25.bitrate ∈
          (frame_main env opts argv).stdout ↔ v.ax25.samplerate % v.ax25.bitrate ≠ 0) ∧
      ((frame_main env opts argv).stdout = [] ↔ v.ax25.samplerate % v.ax25.bitrate = 0) ∧
      (frame_main env opts argv).stderr = [] ∧
      (frame_main env opts argv).frame = some (frame_frame_call v) ∧
      (frame_frame_call v).ax25 = v.ax25 ∧
      (frame_main env opts argv).status = some 0) := by
  constructor
  · intro v ha h1 h2
    rw [beacon_main_run env opts argv v ha h1 h2]
    refine ⟨(rate_check_mem v.ax25).1, (rate_check_mem v.ax25).2, rfl, rfl,
      fun c hc => (beacon_frame_call_fields v c hc).1, ?_⟩
    intro x y hx hy hlat hlon
    obtain ⟨s, es, ps, qs, _⟩ := scale_latitude_value v.latitude x hx hlat.1 hlat.2
    obtain ⟨t, et, pt, qt, _⟩ := scale_longitude_value v.longitude y hy hlon.1 hlon.2
    have e := beacon_frame_call_eq v ⌊s⌋.toNat ⌊t⌋.toNat
      (by rw [beacon_lat_int, es]
          exact to_uint32_of_nonneg s ps (lt_of_le_of_lt qs (by norm_num)))
      (by rw [beacon_lon_int, et]
          exact to_uint32_of_nonneg t pt (lt_of_le_of_lt qt (by norm_num)))
    simp only [e]
    exact ⟨⟨_, rfl⟩, rfl⟩
  · intro v ha h1 h2
    rw [frame_main_run env opts argv v ha h1 h2]
    exact ⟨(rate_check_mem v.ax25).1, (rate_check_mem v.ax25).2, rfl, rfl, rfl, rfl⟩

/-- At 44100 Hz and 1200 bit/s ax25frame prints the warning and still makes its
`ax25_frame` call with the sample rate 44100. -/
theorem rate_warning_nonfatal_witness :
    Msg.rate_warning 44100 1200 ∈
      (frame_main example_env
        [⟨'s', "N0CALL".toList⟩, ⟨'d', "APRS".toList⟩, ⟨'r', "44100".toList⟩]
        ["TEST".toList]).stdout ∧
    ((frame_main example_env
        [⟨'s', "N0CALL".toList⟩, ⟨'d', "APRS".toList⟩, ⟨'r', "44100".toList⟩]
        ["TEST".toList]).frame.map (fun c => c.ax25.samplerate)) = some 44100 :=
  have h := (rate_warning_nonfatal example_env
    [⟨'s', "N0CALL".toList⟩, ⟨'d', "APRS".toList⟩, ⟨'r', "44100".toList⟩]
    ["TEST".toList]).2
    { ax25 := { example_env.init with samplerate := 44100 }, wavfile := none,
      src_callsign := "N0CALL".toList, dst_callsign := "APRS".toList, path1 := none,
      path2 := none, data := "TEST".toList }
    rfl rfl (by decide)
  ⟨h.1.2 (by decide), by rw [h.2.2.2.1]; rfl⟩

/-! ## The payload of ax25beacon -/

theorem format_percent_s (s : CString) : format "%s".toList [PrintfArg.str s] = some s := by
  have hd : "%s".toList = ['%', 's'] := by decide
  rw [hd]
  simp [format, format_from, format_conv, pad_left]

/-- C6: for every payload whose formatted length exceeds `AX25_MAX_LEN` (256),
`ax25_frame` ends with the frame-too-large result, which is neither the OK result
nor the out-of-memory result, and no chunk of samples has been handed to the
audio callback. -/
theorem ax25_frame_too_large (modulate : ax25_t → List Nat → List (List Int))
    (sink : Nat → List Int → Bool) (ax25 : ax25_t) (src dst : Address)
    (path1 path2 : Option Address) (data : CString) (args : List PrintfArg)
    (payload : CString) (hf : format data args = some payload)
    (hl : AX25_MAX_LEN < payload.length) :
    ∃ t, ax25_frame modulate sink ax25 src dst path1 path2 data args = some t ∧
      t.result = TransmitResult.frameTooLarge ∧ t.delivered = [] ∧
      t.result ≠ TransmitResult.ok ∧ t.result ≠ TransmitResult.outOfMemory := by
  refine ⟨{ result := TransmitResult.frameTooLarge, delivered := [] }, ?_, rfl, rfl,
    by decide, by decide⟩
  unfold ax25_frame
  rw [hf]
  simp [frame_builder, hl]

/-- A payload of 257 bytes is refused although the sink accepts everything. -/
theorem ax25_frame_too_large_witness :
    Option.map Transmission.result
      (ax25_frame (fun _ frame => [frame.map Int.ofNat]) (fun _ _ => true)
        example_env.init ⟨"N0CALL".toList, 0, by decide, by decide⟩
        ⟨"APRS".toList, 0, by decide, by decide⟩ none none "%s".toList
        [PrintfArg.str (List.replicate 257 'a')]) = some TransmitResult.frameTooLarge ∧
    Option.map Transmission.delivered
      (ax25_frame (fun _ frame => [frame.map Int.ofNat]) (fun _ _ => true)
        example_env.init ⟨"N0CALL".toList, 0, by decide, by decide⟩
        ⟨"APRS".toList, 0, by decide, by decide⟩ none none "%s".toList
        [PrintfArg.str (List.replicate 257 'a')]) = some [] := by
  obtain ⟨t, h1, h2, h3, _⟩ := ax25_frame_too_large (fun _ frame => [frame.map Int.ofNat])
    (fun _ _ => true) example_env.init ⟨"N0CALL".toList, 0, by decide, by decide⟩
    ⟨"APRS".toList, 0, by decide, by decide⟩ none none "%s".toList
    [PrintfArg.str (List.replicate 257 'a')] (List.replicate 257 'a')
    (format_percent_s _)
    (by rw [List.length_replicate]; decide)
  rw [h1]
  exact ⟨congrArg some h2, congrArg some h3⟩

end Ax25
